import Mathlib

/-!
# DbGrainBuf: the grain scheduling and mixing engine

A shallow embedding of `src/DbGrainBuf/dbGrainBuf.h` (class `dbGrainBuf`).

* `float` values are modelled exactly: a finite value is `± m * 2 ^ e`, every
  arithmetic result is rounded to binary32 (round to nearest, ties to even,
  gradual underflow, overflow to infinity).  Expressions are evaluated in
  `float` precision (`FLT_EVAL_METHOD == 0`).
* `long` is the 64 bit two's complement type of the LP64 targets.  Sums wrap
  modulo `2 ^ 64`; a floating value that does not fit converts to `LONG_MIN`
  (the x86-64 conversion result).
* The headers `dbGrainUtil.h`, `dbSndBuf.h` and `dbRand.h` are not part of the
  sources at hand.  What `dbGrainBuf.h` calls in them is a field of `Collab`;
  the grain pool is modelled from the specification, and so is the contract of a
  grain's first sample (`GrainContract`).
* Every state changing call that `dbGrainBuf` makes into a collaborator is appended
  to a call log, so that "is called once" and "is not called" are statements about
  a list.  Console output (`std::cout`), and with it the two pool queries made for
  the debug message, is not modelled.
-/

namespace DbGrainBuf

/-! ## `float` and `long` -/

/-- A floating point value: `fin neg m e` is `(-1)^neg * m * 2^e`. -/
inductive CFloat where
  | fin (neg : Bool) (m : Nat) (e : Int)
  | inf (neg : Bool)
  | nan
deriving DecidableEq, Repr

/-- The power `2 ^ k` for `0 ≤ k`, and `1` for a negative `k`. -/
def pow2 (k : Int) : Nat := 2 ^ k.toNat

/-- Nearest natural number to `num / den`, a tie going to the even neighbour. -/
def roundHalfEven (num den : Nat) : Nat :=
  let q := num / den
  let r := num % den
  if 2 * r < den then q
  else if den < 2 * r then q + 1
  else if q % 2 = 0 then q else q + 1

/-- Number of halvings that bring `n` below 2, at most `fuel` of them. -/
def log2Fuel : Nat → Nat → Nat
  | 0, _ => 0
  | fuel + 1, n => if n < 2 then 0 else log2Fuel fuel (n / 2) + 1

/-- Position of the leading bit of `n`: `2 ^ log2 n ≤ n < 2 ^ (log2 n + 1)` for `0 < n`. -/
def log2 (n : Nat) : Nat := log2Fuel n n

/-- For positive `n`, `d`: the integer `k` with `2^k ≤ n / d < 2^(k+1)`. -/
def ilog2 (n d : Nat) : Int :=
  let k : Int := (log2 n : Int) - (log2 d : Int)
  if d * pow2 k ≤ n * pow2 (-k) then k else k - 1

/-- Rounding of `(-1)^neg * (n / d) * 2^x` to binary32: 24 significant bits, least
exponent `-149` (subnormals), round to nearest even, overflow to infinity. -/
def round32 (neg : Bool) (n d : Nat) (x : Int) : CFloat :=
  if n = 0 ∨ d = 0 then .fin neg 0 0 else
  let u : Int := max (ilog2 n d + x) (-126) - 23
  let m := roundHalfEven (n * pow2 (x - u)) (d * pow2 (u - x))
  if m = 0 then .fin neg 0 0
  else if m = 2 ^ 24 then (if 104 < u + 1 then .inf neg else .fin neg (2 ^ 23) (u + 1))
  else if 104 < u then .inf neg else .fin neg m u

/-- The `float` literal nearest to `n / d`. -/
def CFloat.lit (n d : Nat) : CFloat := round32 false n d 0

/-- The `float` product `a * b`. -/
def CFloat.mul : CFloat → CFloat → CFloat
  | .fin s m e, .fin t n f => round32 (s != t) (m * n) 1 (e + f)
  | .fin s m _, .inf t => if m = 0 then .nan else .inf (s != t)
  | .inf s, .fin t n _ => if n = 0 then .nan else .inf (s != t)
  | .inf s, .inf t => .inf (s != t)
  | _, _ => .nan

/-- The `float` quotient `a / b`. -/
def CFloat.div : CFloat → CFloat → CFloat
  | .fin s m e, .fin t n f =>
      if n = 0 then (if m = 0 then .nan else .inf (s != t))
      else round32 (s != t) m n (e - f)
  | .fin s _ _, .inf t => .fin (s != t) 0 0
  | .inf s, .fin t _ _ => .inf (s != t)
  | _, _ => .nan

/-- The comparison `a != 0`: true for every value but the two zeros. -/
def CFloat.ne0 : CFloat → Bool
  | .fin _ m _ => m != 0
  | _ => true

/-- Whether `0 < a`. -/
def CFloat.isPos : CFloat → Bool
  | .fin neg m _ => !neg && m != 0
  | .inf neg => !neg
  | .nan => false

/-- The least value of `long`. -/
def LONG_MIN : Int := -9223372036854775808

/-- The greatest value of `long`. -/
def LONG_MAX : Int := 9223372036854775807

/-- Whether an integer is a value of `long`. -/
def InLong (z : Int) : Prop := LONG_MIN ≤ z ∧ z ≤ LONG_MAX

instance (z : Int) : Decidable (InLong z) := by unfold InLong; infer_instance

/-- Two's complement reduction of an integer to `long`. -/
def wrapLong (z : Int) : Int := (z + 9223372036854775808) % 18446744073709551616 - 9223372036854775808

/-- The `long` sum `a + b`. -/
def ladd (a b : Int) : Int := wrapLong (a + b)

/-- Conversion of a floating value to `long`: the fraction is discarded (rounding
toward zero); a value with no `long` counterpart gives `LONG_MIN`. -/
def CFloat.toLong : CFloat → Int
  | .fin neg m e =>
      let t : Int := ((m * pow2 e / pow2 (-e) : Nat) : Int)
      let v := if neg then -t else t
      if LONG_MIN ≤ v ∧ v ≤ LONG_MAX then v else LONG_MIN
  | _ => LONG_MIN

/-- Conversion of a `long` to `float`. -/
def CFloat.ofLong (z : Int) : CFloat := round32 (decide (z < 0)) z.natAbs 1 0

/-- The rational number a finite value stands for. -/
def CFloat.toRat : CFloat → Option Rat
  | .fin neg m e => some ((if neg then -1 else 1) * (m : Rat) * (2 : Rat) ^ e)
  | _ => none

/-- Rounding of a rational number toward zero. -/
def truncRat (q : Rat) : Int := if 0 ≤ q then ⌊q⌋ else ⌈q⌉

/-! ## The collaborators -/

/-- The window variants `dbGrainBuf::GrainWindow` selects (`dbWindowing::FilterType`). -/
inductive FilterType where
  | kBlackman | kHanning | kHamming | kBartlett | kPlanckTaper
deriving DecidableEq, Repr

/-- What `dbGrainBuf.h` uses of the classes declared in the headers it includes:
the sample type, the sound buffer, the trigger, the phasor, the grains and the
random number generator, each with exactly the member functions that are called. -/
structure Collab where
  /-- The type `SAMPLE`. -/
  SAMPLE : Type
  /-- The value of `SAMPLE sum = 0`. -/
  zero : SAMPLE
  /-- The value of `sum += v`. -/
  add : SAMPLE → SAMPLE → SAMPLE
  /-- State of a `dbSndBuf`. -/
  SndBuf : Type
  /-- State of a `dbTrigger`. -/
  Trigger : Type
  /-- State of a `dbPhasor`. -/
  Phasor : Type
  /-- State of one `Grain`. -/
  Grain : Type
  /-- State of the generator behind `rand32HalfRange`. -/
  Rand : Type
  /-- Member `dbSndBuf::Sample()`. -/
  sndbufSample : SndBuf → SAMPLE × SndBuf
  /-- Member `dbPhasor::Tick()`. -/
  phasorTick : Phasor → Rand → Phasor × Rand
  /-- Member `dbPhasor::Sample()`; the value returned is a number of whatever
  arithmetic type, which `Tick` converts to `long`. -/
  phasorSample : Phasor → Rand → CFloat × Phasor × Rand
  /-- Member `dbTrigger::SampleAndTick(in)`. -/
  triggerSampleAndTick : Trigger → Rand → SAMPLE → Bool × Trigger × Rand
  /-- Member `dbTrigger::SetPeriod(ticks)`. -/
  triggerSetPeriod : Trigger → Int → Trigger
  /-- Member `dbTrigger::SetRange(pct)`. -/
  triggerSetRange : Trigger → CFloat → Trigger
  /-- Members `dbPhasor::SetStart`, `SetStop`, `SetRate`, `SetWobble`. -/
  phasorSetStart : Phasor → CFloat → Phasor
  phasorSetStop : Phasor → CFloat → Phasor
  phasorSetRate : Phasor → CFloat → Phasor
  phasorSetWobble : Phasor → CFloat → Phasor
  /-- Function `rand32HalfRange(range)`, an integer draw; the argument is the value of
  the `float` expression passed at the call. -/
  rand32HalfRange : CFloat → Rand → Int × Rand
  /-- Member `Grain::Init(start, stop, rate, window)`. -/
  grainInit : Grain → Int → Int → CFloat → FilterType → Grain
  /-- Member `Grain::SampleAndTick(sndbuf)`. -/
  grainSampleAndTick : Grain → SndBuf → SAMPLE × Grain × SndBuf
  /-- Whether the cursor of a grain has passed its stop sample. -/
  grainDone : Grain → Bool

variable {σ : Collab}

/-- Modelled from the spec: the grain pool `dbGrainMgr` (declared in
`dbGrainUtil.h`).  A fixed number of grain slots owned by the pool; a grain is
referred to by the index of its slot; a slot is free unless it is listed in
`ActiveGrains`, the collection `dbGrainBuf::Tick` iterates. -/
structure dbGrainMgr (σ : Collab) where
  GrainPoolSize : Nat
  slots : Nat → σ.Grain
  ActiveGrains : List Nat

/-- Modelled from the spec: `Allocate()` "returns a free slot if any exist, else
signals saturation"; the slot handed out is reserved, a refusal changes nothing.
Which free slot is handed out, and where it enters the iteration order, the
specification leaves open: here the lowest free slot, entered in front. -/
def dbGrainMgr.Allocate (mgr : dbGrainMgr σ) : Option (Nat × dbGrainMgr σ) :=
  match (List.range mgr.GrainPoolSize).find? (fun i => decide (i ∉ mgr.ActiveGrains)) with
  | some g => some (g, { mgr with ActiveGrains := g :: mgr.ActiveGrains })
  | none => none

/-- The call `g->Init(start, stop, rate, window)` on the grain in slot `g`. -/
def dbGrainMgr.Init (mgr : dbGrainMgr σ) (g : Nat) (start stop : Int) (rate : CFloat)
    (w : FilterType) : dbGrainMgr σ :=
  { mgr with slots := Function.update mgr.slots g (σ.grainInit (mgr.slots g) start stop rate w) }

/-- Modelled from the spec: `Prune()` "scans active slots and reclaims any whose
cursor has passed stopSample". -/
def dbGrainMgr.Prune (mgr : dbGrainMgr σ) : dbGrainMgr σ :=
  { mgr with ActiveGrains := mgr.ActiveGrains.filter (fun g => !σ.grainDone (mgr.slots g)) }

/-- Modelled from the spec: `GetActiveGrainCount()`. -/
def dbGrainMgr.GetActiveGrainCount (mgr : dbGrainMgr σ) : Nat := mgr.ActiveGrains.length

/-! ## The class `dbGrainBuf` -/

/-- The data members of `dbGrainBuf`. -/
structure dbGrainBuf (σ : Collab) where
  sampleRate : CFloat
  sndbuf : σ.SndBuf
  grainMgr : dbGrainMgr σ
  trigger : σ.Trigger
  phasor : σ.Phasor
  bypassGrains : Bool
  windowFilter : FilterType
  grainPeriod : CFloat
  grainPeriodVariance : CFloat
  grainRate : CFloat
  debug : Bool

/-- A call of `dbGrainBuf` into one of its collaborators. -/
inductive Call (S : Type) where
  | sndbufSample
  | phasorTick
  | triggerSampleAndTick (x : S)
  | allocate
  | phasorSample
  | rand32HalfRange (range : CFloat)
  | grainInit (g : Nat) (start stop : Int) (rate : CFloat) (w : FilterType)
  | grainSampleAndTick (g : Nat)
  | prune
deriving DecidableEq, Repr

/-- Whether a call is a `Grain::Init`. -/
def Call.isGrainInit {S : Type} : Call S → Bool
  | .grainInit _ _ _ _ _ => true
  | _ => false

/-- Whether a call belongs to the grain logic (everything but `dbSndBuf::Sample()`). -/
def Call.isGrainLogic {S : Type} : Call S → Bool
  | .sndbufSample => false
  | _ => true

/-- Whether a call belongs to a spawn: sampling the phasor, a jitter draw, `Init`. -/
def Call.isSpawn {S : Type} : Call S → Bool
  | .phasorSample => true
  | .rand32HalfRange _ => true
  | .grainInit _ _ _ _ _ => true
  | _ => false

/-- Whether a call is the `SampleAndTick` of the grain in slot `g`. -/
def Call.isSampleOf {S : Type} (g : Nat) : Call S → Bool
  | .grainSampleAndTick h => h == g
  | _ => false

/-- Whether a call is `Prune()`. -/
def Call.isPrune {S : Type} : Call S → Bool
  | .prune => true
  | _ => false

/-- A `dbGrainBuf` object in its surroundings: the state of the process wide random
generator and the log of the collaborator calls made so far. -/
structure World (σ : Collab) where
  obj : dbGrainBuf σ
  rand : σ.Rand
  calls : List (Call σ.SAMPLE)

/-- The constructor `dbGrainBuf(sampleRate)`, given the freshly constructed
members `sndbuf(sampleRate)`, `trigger`, `phasor(sampleRate)` and the grains
of `grainMgr(512)`. -/
def dbGrainBuf.new (sampleRate : CFloat) (sndbuf : σ.SndBuf) (trigger : σ.Trigger)
    (phasor : σ.Phasor) (grain : σ.Grain) : dbGrainBuf σ :=
  { sampleRate := sampleRate
    sndbuf := sndbuf
    grainMgr := { GrainPoolSize := 512, slots := fun _ => grain, ActiveGrains := [] }
    trigger := trigger
    phasor := phasor
    bypassGrains := false
    windowFilter := .kBlackman
    grainPeriod := CFloat.lit 1 5
    grainPeriodVariance := .fin false 0 0
    grainRate := CFloat.lit 1 1
    debug := false }

/-! ### Calls into the collaborators -/

/-- Appends a call to the log. -/
def World.log (w : World σ) (c : Call σ.SAMPLE) : World σ :=
  { w with calls := w.calls ++ [c] }

/-- The call `this->sndbuf.Sample()`. -/
def callSndbufSample (w : World σ) : σ.SAMPLE × World σ :=
  let r := σ.sndbufSample w.obj.sndbuf
  (r.1, { w with obj := { w.obj with sndbuf := r.2 }, calls := w.calls ++ [.sndbufSample] })

/-- The call `this->phasor.Tick()`. -/
def callPhasorTick (w : World σ) : World σ :=
  let r := σ.phasorTick w.obj.phasor w.rand
  { w with obj := { w.obj with phasor := r.1 }, rand := r.2, calls := w.calls ++ [.phasorTick] }

/-- The call `this->trigger.SampleAndTick(in)`. -/
def callTriggerSampleAndTick (w : World σ) (x : σ.SAMPLE) : Bool × World σ :=
  let r := σ.triggerSampleAndTick w.obj.trigger w.rand x
  (r.1, { w with obj := { w.obj with trigger := r.2.1 }, rand := r.2.2,
                 calls := w.calls ++ [.triggerSampleAndTick x] })

/-- The call `this->grainMgr.Allocate()`. -/
def callAllocate (w : World σ) : Option Nat × World σ :=
  match w.obj.grainMgr.Allocate with
  | some (g, mgr) =>
      (some g, { w with obj := { w.obj with grainMgr := mgr }, calls := w.calls ++ [.allocate] })
  | none => (none, { w with calls := w.calls ++ [.allocate] })

/-- The call `this->phasor.Sample()`. -/
def callPhasorSample (w : World σ) : CFloat × World σ :=
  let r := σ.phasorSample w.obj.phasor w.rand
  (r.1, { w with obj := { w.obj with phasor := r.2.1 }, rand := r.2.2,
                 calls := w.calls ++ [.phasorSample] })

/-- The call `rand32HalfRange(range)`. -/
def callRand32HalfRange (w : World σ) (range : CFloat) : Int × World σ :=
  let r := σ.rand32HalfRange range w.rand
  (r.1, { w with rand := r.2, calls := w.calls ++ [.rand32HalfRange range] })

/-- The call `g->Init(start, stop, rate, window)`. -/
def callGrainInit (w : World σ) (g : Nat) (start stop : Int) (rate : CFloat)
    (f : FilterType) : World σ :=
  { w with obj := { w.obj with grainMgr := w.obj.grainMgr.Init g start stop rate f },
           calls := w.calls ++ [.grainInit g start stop rate f] }

/-- The call `g->SampleAndTick(this->sndbuf)`. -/
def callGrainSampleAndTick (w : World σ) (g : Nat) : σ.SAMPLE × World σ :=
  let r := σ.grainSampleAndTick (w.obj.grainMgr.slots g) w.obj.sndbuf
  (r.1, { w with obj := { w.obj with
                          grainMgr := { w.obj.grainMgr with
                                        slots := Function.update w.obj.grainMgr.slots g r.2.1 },
                          sndbuf := r.2.2 },
                 calls := w.calls ++ [.grainSampleAndTick g] })

/-- The call `this->grainMgr.Prune()`. -/
def callPrune (w : World σ) : World σ :=
  { w with obj := { w.obj with grainMgr := w.obj.grainMgr.Prune }, calls := w.calls ++ [.prune] }

/-! ### Member functions -/

/-- The local `grainSamps` of `getGrainStop`:
`long grainSamps = this->grainPeriod * this->sampleRate`. -/
def grainSamps (o : dbGrainBuf σ) : Int := (o.grainPeriod.mul o.sampleRate).toLong

/-- The argument of the jitter draw in `getGrainStop`:
`grainSamps * this->grainPeriodVariance`. -/
def jitterRange (o : dbGrainBuf σ) : CFloat :=
  (CFloat.ofLong (grainSamps o)).mul o.grainPeriodVariance

/-- Private member `getGrainStop(start)`. -/
def getGrainStop (w : World σ) (start : Int) : Int × World σ :=
  let grainSamps : Int := (w.obj.grainPeriod.mul w.obj.sampleRate).toLong
  let stop := ladd start grainSamps
  if w.obj.grainPeriodVariance.ne0 then
    let r := callRand32HalfRange w ((CFloat.ofLong grainSamps).mul w.obj.grainPeriodVariance)
    (ladd stop r.1, r.2)
  else (stop, w)

/-- Lines 95 to 130 of `Tick`: the phasor is ticked, the trigger queried and, when
it fires, a grain allocated and initialised. -/
def spawnBlock (w : World σ) (x : σ.SAMPLE) : World σ :=
  let w := callPhasorTick w
  let t := callTriggerSampleAndTick w x
  if t.1 then
    match callAllocate t.2 with
    | (some g, w) =>
        let p := callPhasorSample w
        let startPos : Int := p.1.toLong
        let s := getGrainStop p.2 startPos
        callGrainInit s.2 g startPos s.1 s.2.obj.grainRate s.2.obj.windowFilter
    | (none, w) => w
  else t.2

/-- The loop `for(const auto& g: this->grainMgr.ActiveGrains) sum += g->SampleAndTick(..)`
over the grains still to visit. -/
def sumLoop : List Nat → World σ → σ.SAMPLE → σ.SAMPLE × World σ
  | [], w, sum => (sum, w)
  | g :: gs, w, sum =>
      let r := callGrainSampleAndTick w g
      sumLoop gs r.2 (σ.add sum r.1)

/-- Lines 132 to 138 of `Tick`: the summation pass, then `Prune()`. -/
def mixBlock (w : World σ) : σ.SAMPLE × World σ :=
  let r := sumLoop w.obj.grainMgr.ActiveGrains w σ.zero
  (r.1, callPrune r.2)

/-- Member `Tick(in)`. -/
def Tick (w : World σ) (x : σ.SAMPLE) : σ.SAMPLE × World σ :=
  if !w.obj.bypassGrains then
    mixBlock (spawnBlock w x)
  else
    callSndbufSample w

/-- Member `Debug(debug)`: the `int` is stored in the `bool` member. -/
def Debug (o : dbGrainBuf σ) (debug : Int) : Int × dbGrainBuf σ :=
  (debug, { o with debug := decide (debug ≠ 0) })

/-- Member `GrainWindow(filtername)`: the error code and the object afterwards. -/
def GrainWindow (o : dbGrainBuf σ) (filtername : String) : Int × dbGrainBuf σ :=
  if filtername = "blackman" then (0, { o with windowFilter := .kBlackman })
  else if filtername = "hanning" then (0, { o with windowFilter := .kHanning })
  else if filtername = "hamming" then (0, { o with windowFilter := .kHamming })
  else if filtername = "bartlett" then (0, { o with windowFilter := .kBartlett })
  else if filtername = "plancktaper" then (0, { o with windowFilter := .kPlanckTaper })
  else (1, o)

/-- Member `SetBypass(b)`: the `int` is stored in the `bool` member. -/
def SetBypass (o : dbGrainBuf σ) (b : Int) : Int × dbGrainBuf σ :=
  (b, { o with bypassGrains := decide (b ≠ 0) })

/-- Member `GetBypass()`: the `bool` member as an `int`. -/
def GetBypass (o : dbGrainBuf σ) : Int := if o.bypassGrains then 1 else 0

/-- Member `SetTriggerFreq(freq)`. -/
def SetTriggerFreq (o : dbGrainBuf σ) (freq : CFloat) : CFloat × dbGrainBuf σ :=
  let ticks : Int := (o.sampleRate.div freq).toLong
  (freq, { o with trigger := σ.triggerSetPeriod o.trigger ticks })

/-- Member `SetTriggerRange(pct)`. -/
def SetTriggerRange (o : dbGrainBuf σ) (pct : CFloat) : CFloat × dbGrainBuf σ :=
  (pct, { o with trigger := σ.triggerSetRange o.trigger pct })

/-- Member `SetGrainPeriod(period)`. -/
def SetGrainPeriod (o : dbGrainBuf σ) (period : CFloat) : CFloat × dbGrainBuf σ :=
  (period, { o with grainPeriod := period })

/-- Member `SetGrainPeriodVariance(pct)`. -/
def SetGrainPeriodVariance (o : dbGrainBuf σ) (pct : CFloat) : CFloat × dbGrainBuf σ :=
  (pct, { o with grainPeriodVariance := pct })

/-- Member `SetGrainRate(factor)`. -/
def SetGrainRate (o : dbGrainBuf σ) (factor : CFloat) : CFloat × dbGrainBuf σ :=
  (factor, { o with grainRate := factor })

/-- Member `SetGrainPhaseStart(startPhase)`. -/
def SetGrainPhaseStart (o : dbGrainBuf σ) (startPhase : CFloat) : CFloat × dbGrainBuf σ :=
  (startPhase, { o with phasor := σ.phasorSetStart o.phasor startPhase })

/-- Member `SetGrainPhaseStop(stopPhase)`. -/
def SetGrainPhaseStop (o : dbGrainBuf σ) (stopPhase : CFloat) : CFloat × dbGrainBuf σ :=
  (stopPhase, { o with phasor := σ.phasorSetStop o.phasor stopPhase })

/-- Member `SetGrainPhaseRate(phaseRate)`. -/
def SetGrainPhaseRate (o : dbGrainBuf σ) (phaseRate : CFloat) : CFloat × dbGrainBuf σ :=
  (phaseRate, { o with phasor := σ.phasorSetRate o.phasor phaseRate })

/-- Member `SetGrainPhaseWobble(phaseWobble)`. -/
def SetGrainPhaseWobble (o : dbGrainBuf σ) (phaseWobble : CFloat) : CFloat × dbGrainBuf σ :=
  (phaseWobble, { o with phasor := σ.phasorSetWobble o.phasor phaseWobble })

/-! ### What a tick does: intermediate states and call lists -/

/-- The calls made during `Tick(x)`. -/
def tickCalls (w : World σ) (x : σ.SAMPLE) : List (Call σ.SAMPLE) :=
  (Tick w x).2.calls.drop w.calls.length

/-- The values returned by the successive `SampleAndTick` calls of the summation
pass over the grains `gs`, begun in `w`. -/
def sampleEach : List Nat → World σ → List σ.SAMPLE
  | [], _ => []
  | g :: gs, w => (callGrainSampleAndTick w g).1 :: sampleEach gs (callGrainSampleAndTick w g).2

/-- The jitter draw `getGrainStop` takes in `w` when `grainPeriodVariance` is not 0. -/
def jitterDraw (w : World σ) : Int := (σ.rand32HalfRange (jitterRange w.obj) w.rand).1

/-- The state in which the trigger has just been queried, and its answer. -/
def afterTrigger (w : World σ) (x : σ.SAMPLE) : Bool × World σ :=
  callTriggerSampleAndTick (callPhasorTick w) x

/-- The calls made by lines 95 to 130 of `Tick(x)`. -/
def spawnCalls (w : World σ) (x : σ.SAMPLE) : List (Call σ.SAMPLE) :=
  (spawnBlock w x).calls.drop w.calls.length

/-- The state in which a spawn samples the phasor: the trigger has fired and the
slot `g` has been handed out, leaving the pool as `mgr`. -/
def afterAllocate (w : World σ) (x : σ.SAMPLE) (mgr : dbGrainMgr σ) : World σ :=
  { (afterTrigger w x).2 with
    obj := { (afterTrigger w x).2.obj with grainMgr := mgr },
    calls := (afterTrigger w x).2.calls ++ [Call.allocate] }

/-- The start sample of the grain spawned by `Tick(x)` when the pool is left as `mgr`:
`(long) this->phasor.Sample()`. -/
def spawnStart (w : World σ) (x : σ.SAMPLE) (mgr : dbGrainMgr σ) : Int :=
  (callPhasorSample (afterAllocate w x mgr)).1.toLong

/-- The stop sample of the grain spawned by `Tick(x)`: `this->getGrainStop(startPos)`. -/
def spawnStop (w : World σ) (x : σ.SAMPLE) (mgr : dbGrainMgr σ) : Int :=
  (getGrainStop (callPhasorSample (afterAllocate w x mgr)).2 (spawnStart w x mgr)).1

/-- The pool invariant: no slot is listed twice as active, and every active slot is
one of the slots of the pool. -/
def PoolOk (mgr : dbGrainMgr σ) : Prop :=
  mgr.ActiveGrains.Nodup ∧ ∀ g ∈ mgr.ActiveGrains, g < mgr.GrainPoolSize

/-- The state in which `getGrainStop` is called by the spawn of `Tick(x)`. -/
def spawnWorld (w : World σ) (x : σ.SAMPLE) (mgr : dbGrainMgr σ) : World σ :=
  (callPhasorSample (afterAllocate w x mgr)).2

/-- The state in which `Prune()` is called by `Tick(x)`: the summation pass is over. -/
def afterSum (w : World σ) (x : σ.SAMPLE) : World σ :=
  (sumLoop (spawnBlock w x).obj.grainMgr.ActiveGrains (spawnBlock w x) σ.zero).2

/-- The pool from which the summation pass of `Tick(x)` starts. -/
def passPool (w : World σ) (x : σ.SAMPLE) : dbGrainMgr σ := (spawnBlock w x).obj.grainMgr

/-- The summation pass in the words of the specification, written with the
collaborator's `Grain::SampleAndTick` itself: each listed grain in turn is handed to
`SampleAndTick` together with the sound buffer as the calls before it left it; the
result is the list of the values returned, the grains after the pass and the sound
buffer after the pass. -/
def samplePass (σ : Collab) :
    List Nat → (Nat → σ.Grain) → σ.SndBuf → List σ.SAMPLE × (Nat → σ.Grain) × σ.SndBuf
  | [], slots, snd => ([], slots, snd)
  | g :: gs, slots, snd =>
      ((σ.grainSampleAndTick (slots g) snd).1
          :: (samplePass σ gs (Function.update slots g (σ.grainSampleAndTick (slots g) snd).2.1)
                (σ.grainSampleAndTick (slots g) snd).2.2).1,
        (samplePass σ gs (Function.update slots g (σ.grainSampleAndTick (slots g) snd).2.1)
          (σ.grainSampleAndTick (slots g) snd).2.2).2)

/-- A grain of the executable instance: what `Init` was given, and a cursor. -/
structure DemoGrain where
  start : Int
  stop : Int
  rate : CFloat
  window : FilterType
  pos : Int
deriving DecidableEq, Repr

/-- Envelope of the executable instance, in percent: 0 at the first sample of a grain
(progress 0), whatever the window, and full level after that. -/
def demoEnvelope (g : DemoGrain) : Int :=
  if g.pos = g.start then 0 else 100

/-- An executable instance of the collaborators: integer samples, a buffer that
holds a constant signal, a trigger that counts ticks up to its period, a phasor
that advances one sample a tick, grains that advance one sample a tick, and a
generator that replays a list of draws. -/
@[reducible]
def demo : Collab where
  SAMPLE := Int
  zero := 0
  add := fun a b => a + b
  SndBuf := Int
  Trigger := Nat × Nat
  Phasor := Nat
  Grain := DemoGrain
  Rand := List Int
  sndbufSample := fun b => (b, b)
  phasorTick := fun p r => (p + 1, r)
  phasorSample := fun p r => (.fin false p 0, p, r)
  triggerSampleAndTick := fun t r _ =>
    if t.1 ≤ t.2 + 1 then (true, (t.1, 0), r) else (false, (t.1, t.2 + 1), r)
  triggerSetPeriod := fun t ticks => (ticks.toNat, t.2)
  triggerSetRange := fun t _ => t
  phasorSetStart := fun p _ => p
  phasorSetStop := fun p _ => p
  phasorSetRate := fun p _ => p
  phasorSetWobble := fun p _ => p
  rand32HalfRange := fun _ r => (r.headD 0, r.tail)
  grainInit := fun _ a b rate f => ⟨a, b, rate, f, a⟩
  grainSampleAndTick := fun g b => (demoEnvelope g * b, { g with pos := g.pos + 1 }, b)
  grainDone := fun g => decide (g.stop < g.pos)

/-- A grain of the executable instance that has not been initialised. -/
def demoGrain : DemoGrain := ⟨0, 0, .fin false 0 0, .kBlackman, 0⟩

/-- The object `dbGrainBuf(44100)` over the executable instance; the buffer holds
the constant signal 3 and the trigger has period 1. -/
def demoObj : dbGrainBuf demo := dbGrainBuf.new (CFloat.lit 44100 1) (3 : Int) ((1, 0) : Nat × Nat) (0 : Nat) demoGrain

/-- The object `demoObj` before any call has been made. -/
def demoWorld : World demo := { obj := demoObj, rand := ([] : List Int), calls := [] }

/-- The world `demoWorld` after `SetBypass(1)`. -/
def demoBypassWorld : World demo := { demoWorld with obj := (SetBypass demoObj 1).2 }

/-- A world over the executable instance whose pool of 512 grains is saturated: every
slot holds an active grain that plays the samples 0 to 100 and stands at sample 5. -/
def demoFullWorld : World demo :=
  { demoWorld with
    obj := { demoObj with
             grainMgr := { GrainPoolSize := 512,
                           slots := fun _ => ⟨0, 100, CFloat.lit 1 1, .kHanning, 5⟩,
                           ActiveGrains := List.range 512 } } }

/-- The grains of `demoBusyWorld`: slot 0 plays the samples 0 to 100 and stands at
sample 5, slot 1 plays the samples 0 to 9 and stands at its last sample, 9. -/
def demoBusySlots (i : Nat) : DemoGrain :=
  if i = 0 then ⟨0, 100, CFloat.lit 1 1, .kHanning, 5⟩
  else if i = 1 then ⟨0, 9, CFloat.lit 1 1, .kBartlett, 9⟩
  else demoGrain

/-- A world over the executable instance with two active grains, in the slots 1 and
0; the grain in slot 1 passes its stop sample in the next tick. -/
def demoBusyWorld : World demo :=
  { demoWorld with
    obj := { demoObj with
             grainMgr := { GrainPoolSize := 512, slots := demoBusySlots,
                           ActiveGrains := [1, 0] } } }

/-- The world `demoWorld` after `SetGrainPeriod(-1.0f)`. -/
def demoNegWorld : World demo :=
  { demoWorld with obj := (SetGrainPeriod demoObj (.fin true 8388608 (-23))).2 }

/-- The world `demoWorld` after `SetGrainPeriodVariance(0.5f)`, with a generator whose
next draw is `-4410`. -/
def demoJitterWorld : World demo :=
  { demoWorld with obj := (SetGrainPeriodVariance demoObj (CFloat.lit 1 2)).2,
                   rand := ([-4410] : List Int) }

/-- The world `demoWorld` after `SetGrainPeriodVariance(2.0f)`, with a generator whose
next draw is `-17640`. -/
def demoWideWorld : World demo :=
  { demoWorld with obj := (SetGrainPeriodVariance demoObj (CFloat.lit 2 1)).2,
                   rand := ([-17640] : List Int) }

/-! ## Auxiliary facts -/

/-! ### The arithmetic model -/

/-- The numbers `pow2 k` are positive. -/
theorem pow2_pos (k : Int) : 0 < pow2 k := by
  unfold pow2; positivity

/-- The power `2 ^ e` for an integer `e`, as a quotient of two `pow2`. -/
theorem zpow_two_eq (e : Int) : (2 : Rat) ^ e = (pow2 e : Rat) / (pow2 (-e) : Rat) := by
  unfold pow2
  rcases le_total 0 e with h | h
  · have h1 : (-e).toNat = 0 := by omega
    have h2 : (e.toNat : Int) = e := Int.toNat_of_nonneg h
    rw [h1]
    simp only [pow_zero, Nat.cast_one, div_one, Nat.cast_pow, Nat.cast_ofNat]
    rw [← zpow_natCast, h2]
  · have h1 : e.toNat = 0 := by omega
    have h2 : ((-e).toNat : Int) = -e := Int.toNat_of_nonneg (by omega)
    rw [h1]
    simp only [pow_zero, Nat.cast_one, one_div, Nat.cast_pow, Nat.cast_ofNat]
    rw [← zpow_natCast, h2, zpow_neg, inv_inv]

/-- The integer part of `m * 2 ^ e`, as `Nat` arithmetic computes it. -/
theorem floor_mul_zpow (m : Nat) (e : Int) :
    ⌊(m : Rat) * (2 : Rat) ^ e⌋ = ((m * pow2 e / pow2 (-e) : Nat) : Int) := by
  rw [zpow_two_eq, ← mul_div_assoc]
  have h := Rat.floor_intCast_div_natCast ((m * pow2 e : Nat) : Int) (pow2 (-e))
  push_cast at h ⊢
  rw [h]

/-- The conversion to `long` discards the fraction: a finite value whose integer
part fits `long` converts to that integer part. -/
theorem toLong_eq_truncRat (a : CFloat) (q : Rat) (hq : a.toRat = some q)
    (hr : InLong (truncRat q)) : a.toLong = truncRat q := by
  cases a with
  | inf neg => simp [CFloat.toRat] at hq
  | nan => simp [CFloat.toRat] at hq
  | fin neg m e =>
      simp only [CFloat.toRat, Option.some.injEq] at hq
      have hnn : (0 : Rat) ≤ (m : Rat) * (2 : Rat) ^ e := by positivity
      have ht : truncRat q = (if neg then -((m * pow2 e / pow2 (-e) : Nat) : Int)
          else ((m * pow2 e / pow2 (-e) : Nat) : Int)) := by
        cases neg with
        | false =>
            simp only [Bool.false_eq_true, if_false, one_mul] at hq ⊢
            rw [← hq, truncRat, if_pos hnn, floor_mul_zpow]
        | true =>
            simp only [if_true, neg_mul, one_mul] at hq ⊢
            rw [← hq, truncRat]
            split_ifs with h0
            · have hz : (m : Rat) * (2 : Rat) ^ e = 0 := le_antisymm (by linarith) hnn
              have hf := floor_mul_zpow m e
              rw [hz] at hf ⊢
              simp only [Int.floor_zero, neg_zero] at hf ⊢
              rw [← hf]; simp
            · rw [Int.ceil_neg, floor_mul_zpow]
      unfold InLong at hr
      rw [ht] at hr ⊢
      simp only [CFloat.toLong]
      rw [if_pos hr]

/-- With enough fuel, `log2Fuel` finds the position of the leading bit. -/
theorem log2Fuel_spec (fuel : Nat) : ∀ n, 0 < n → n ≤ fuel →
    2 ^ log2Fuel fuel n ≤ n ∧ n < 2 ^ (log2Fuel fuel n + 1) := by
  induction fuel with
  | zero => intro n h0 h1; omega
  | succ fuel ih =>
      intro n h0 h1
      unfold log2Fuel
      split_ifs with h2
      · simp; omega
      · have h := ih (n / 2) (by omega) (by omega)
        rw [pow_succ, pow_succ]
        generalize 2 ^ log2Fuel fuel (n / 2) = a at h ⊢
        rw [pow_succ] at h
        omega

/-- The value `log2 n` is the position of the leading bit of a positive `n`. -/
theorem log2_spec (n : Nat) (h : 0 < n) : 2 ^ log2 n ≤ n ∧ n < 2 ^ (log2 n + 1) :=
  log2Fuel_spec n n h le_rfl

/-- The value `ilog2 n d` is the binary exponent of the quotient `n / d`. -/
theorem ilog2_spec (n d : Nat) (hn : 0 < n) (hd : 0 < d) :
    (2 : Rat) ^ ilog2 n d ≤ (n : Rat) / d ∧ (n : Rat) / d < (2 : Rat) ^ (ilog2 n d + 1) := by
  obtain ⟨hn1, hn2⟩ := log2_spec n hn
  obtain ⟨hd1, hd2⟩ := log2_spec d hd
  have hdq : (0 : Rat) < d := by exact_mod_cast hd
  have hn1q : (2 : Rat) ^ (log2 n) ≤ n := by exact_mod_cast hn1
  have hn2q : (n : Rat) < (2 : Rat) ^ (log2 n + 1) := by exact_mod_cast hn2
  have hd1q : (2 : Rat) ^ (log2 d) ≤ d := by exact_mod_cast hd1
  have hd2q : (d : Rat) < (2 : Rat) ^ (log2 d + 1) := by exact_mod_cast hd2
  have h2 : (0 : Rat) < 2 := by norm_num
  have hk : ∀ j : Int, (2 : Rat) ^ ((log2 n : Int) - (log2 d : Int) + j)
      = (2 : Rat) ^ (log2 n) / (2 : Rat) ^ (log2 d) * (2 : Rat) ^ j := by
    intro j
    rw [zpow_add₀ h2.ne', zpow_sub₀ h2.ne', zpow_natCast, zpow_natCast]
  have hpd : (0 : Rat) < (2 : Rat) ^ (log2 d) := by positivity
  have hpn : (0 : Rat) < (2 : Rat) ^ (log2 n) := by positivity
  unfold ilog2
  simp only
  have hcond : (d * pow2 ((log2 n : Int) - (log2 d : Int))
        ≤ n * pow2 (-((log2 n : Int) - (log2 d : Int))))
      ↔ (2 : Rat) ^ ((log2 n : Int) - (log2 d : Int)) ≤ (n : Rat) / d := by
    rw [zpow_two_eq, div_le_div_iff₀ (by exact_mod_cast pow2_pos _) hdq]
    constructor
    · intro h
      have : ((d * pow2 ((log2 n : Int) - (log2 d : Int)) : Nat) : Rat)
          ≤ ((n * pow2 (-((log2 n : Int) - (log2 d : Int))) : Nat) : Rat) := by exact_mod_cast h
      push_cast at this
      linarith
    · intro h
      have : ((d * pow2 ((log2 n : Int) - (log2 d : Int)) : Nat) : Rat)
          ≤ ((n * pow2 (-((log2 n : Int) - (log2 d : Int))) : Nat) : Rat) := by
        push_cast; linarith
      exact_mod_cast this
  split_ifs with hc
  · refine ⟨hcond.mp hc, ?_⟩
    rw [hk 1, zpow_one, div_lt_iff₀ hdq]
    have : (2 : Rat) ^ (log2 n) / (2 : Rat) ^ (log2 d) * 2 * d
        = (2 : Rat) ^ (log2 n + 1) * (d / (2 : Rat) ^ (log2 d)) := by
      rw [pow_succ]; field_simp
    rw [this]
    have h1 : (1 : Rat) ≤ d / (2 : Rat) ^ (log2 d) := by
      rw [le_div_iff₀ hpd]; linarith
    have h3 : (0 : Rat) < (2 : Rat) ^ (log2 n + 1) := by positivity
    nlinarith
  · have hlt : (n : Rat) / d < (2 : Rat) ^ ((log2 n : Int) - (log2 d : Int)) := by
      rw [← not_le]; exact fun h => hc (hcond.mpr h)
    refine ⟨?_, ?_⟩
    · have := hk (-1)
      rw [show (log2 n : Int) - (log2 d : Int) + -1 = (log2 n : Int) - (log2 d : Int) - 1 by ring]
        at this
      rw [this, zpow_neg, zpow_one, le_div_iff₀ hdq]
      have h4 : (2 : Rat) ^ (log2 n) / (2 : Rat) ^ (log2 d) * 2⁻¹ * d
          = (2 : Rat) ^ (log2 n) * (d / (2 : Rat) ^ (log2 d + 1)) := by
        rw [pow_succ]; field_simp
      rw [h4]
      have h5 : d / (2 : Rat) ^ (log2 d + 1) ≤ 1 := by
        rw [div_le_iff₀ (by positivity)]; linarith
      nlinarith
    · rw [show (log2 n : Int) - (log2 d : Int) - 1 + 1 = (log2 n : Int) - (log2 d : Int) by ring]
      exact hlt

/-- The value `roundHalfEven num den` is within one half of `num / den`. -/
theorem roundHalfEven_spec (num den : Nat) (hd : 0 < den) :
    |((roundHalfEven num den : Nat) : Rat) - (num : Rat) / den| ≤ 1 / 2 := by
  have hdq : (0 : Rat) < den := by exact_mod_cast hd
  have hdiv := Nat.div_add_mod num den
  have hmod := Nat.mod_lt num hd
  have key : 2 * num ≤ 2 * (roundHalfEven num den * den) + den
      ∧ 2 * (roundHalfEven num den * den) ≤ 2 * num + den := by
    unfold roundHalfEven
    simp only
    have hq : num / den * den = den * (num / den) := Nat.mul_comm _ _
    have hq1 : (num / den + 1) * den = den * (num / den) + den := by ring
    split_ifs <;> simp only [hq, hq1] <;> omega
  obtain ⟨k1, k2⟩ := key
  have k1q : (2 : Rat) * num ≤ 2 * (roundHalfEven num den * den) + den := by exact_mod_cast k1
  have k2q : (2 : Rat) * (roundHalfEven num den * den) ≤ 2 * num + den := by exact_mod_cast k2
  have hx : (num : Rat) / den * den = num := div_mul_cancel₀ _ hdq.ne'
  generalize (num : Rat) / den = x at hx ⊢
  rw [abs_le]
  constructor
  · by_contra h
    push_neg at h
    nlinarith [mul_lt_mul_of_pos_right h hdq]
  · by_contra h
    push_neg at h
    nlinarith [mul_lt_mul_of_pos_right h hdq]

/-- The definition of `round32` for a non-zero value, written out. -/
theorem round32_unfold (neg : Bool) (n d : Nat) (x : Int) (hn : 0 < n) (hd : 0 < d) :
    round32 neg n d x =
      (if roundHalfEven (n * pow2 (x - (max (ilog2 n d + x) (-126) - 23)))
            (d * pow2 ((max (ilog2 n d + x) (-126) - 23) - x)) = 0 then .fin neg 0 0
       else if roundHalfEven (n * pow2 (x - (max (ilog2 n d + x) (-126) - 23)))
            (d * pow2 ((max (ilog2 n d + x) (-126) - 23) - x)) = 2 ^ 24 then
          (if 104 < (max (ilog2 n d + x) (-126) - 23) + 1 then .inf neg
           else .fin neg (2 ^ 23) ((max (ilog2 n d + x) (-126) - 23) + 1))
       else if 104 < (max (ilog2 n d + x) (-126) - 23) then .inf neg
       else .fin neg (roundHalfEven (n * pow2 (x - (max (ilog2 n d + x) (-126) - 23)))
            (d * pow2 ((max (ilog2 n d + x) (-126) - 23) - x)))
            (max (ilog2 n d + x) (-126) - 23)) := by
  have hq0 : ¬ (n = 0 ∨ d = 0) := by omega
  unfold round32
  rw [if_neg hq0]

/-- The rounding `round32` is a rounding to binary32.  A finite result `m * 2 ^ e` has
the sign of the argument and `m < 2 ^ 24`; it is zero only for an argument of at
most `2 ^ (-150)`; otherwise `-149 ≤ e ≤ 104`, the significand is normalised
(`2 ^ 23 ≤ m`) unless `e = -149`, and the result is within half a unit in the last
place of the argument.  The result is infinite only for an argument of at least
`(2 ^ 24 - 1/2) * 2 ^ 104`. -/
theorem round32_spec (neg : Bool) (n d : Nat) (x : Int) (hn : 0 < n) (hd : 0 < d) :
    (∀ s m e, round32 neg n d x = .fin s m e →
      s = neg ∧ m < 2 ^ 24 ∧
      ((m = 0 ∧ e = 0 ∧ (n : Rat) / d * (2 : Rat) ^ x ≤ (2 : Rat) ^ (-150 : Int)) ∨
       (m ≠ 0 ∧ -149 ≤ e ∧ e ≤ 104 ∧ (2 ^ 23 ≤ m ∨ e = -149) ∧
         |(m : Rat) * (2 : Rat) ^ e - (n : Rat) / d * (2 : Rat) ^ x| ≤ (2 : Rat) ^ e / 2)))
    ∧ (∀ s, round32 neg n d x = .inf s →
      s = neg ∧ ((2 : Rat) ^ 24 - 1 / 2) * (2 : Rat) ^ (104 : Int)
        ≤ (n : Rat) / d * (2 : Rat) ^ x)
    ∧ round32 neg n d x ≠ .nan := by
  obtain ⟨hk1, hk2⟩ := ilog2_spec n d hn hd
  have hun := round32_unfold neg n d x hn hd
  generalize ilog2 n d = k at hk1 hk2 hun
  have hu : max (k + x) (-126) - 23 = k + x - 23 ∧ -126 ≤ k + x
      ∨ max (k + x) (-126) - 23 = -149 ∧ k + x < -126 := by
    rcases le_or_lt (-126) (k + x) with h | h
    · left; exact ⟨by rw [max_eq_left h], h⟩
    · right; exact ⟨by rw [max_eq_right h.le]; norm_num, h⟩
  generalize max (k + x) (-126) - 23 = u at hun hu
  have hD : 0 < d * pow2 (u - x) := Nat.mul_pos hd (pow2_pos _)
  have hr := roundHalfEven_spec (n * pow2 (x - u)) (d * pow2 (u - x)) hD
  have h2 : (2 : Rat) ≠ 0 := by norm_num
  have hP : (0 : Rat) < (2 : Rat) ^ u := by positivity
  have hdq : (0 : Rat) < d := by exact_mod_cast hd
  have hy : ((n * pow2 (x - u) : Nat) : Rat) / ((d * pow2 (u - x) : Nat) : Rat)
      = (n : Rat) / d * (2 : Rat) ^ x / (2 : Rat) ^ u := by
    have h := zpow_two_eq (x - u)
    rw [show -(x - u) = u - x by ring, zpow_sub₀ h2] at h
    have hp1 : (0 : Rat) < (pow2 (u - x) : Rat) := by exact_mod_cast pow2_pos _
    push_cast
    rw [mul_div_mul_comm, ← h]
    ring
  rw [hy] at hr
  generalize roundHalfEven (n * pow2 (x - u)) (d * pow2 (u - x)) = m0 at hun hr
  have hyk1 : (2 : Rat) ^ (k + x - u) ≤ (n : Rat) / d * (2 : Rat) ^ x / (2 : Rat) ^ u := by
    rw [zpow_sub₀ h2, zpow_add₀ h2]
    exact div_le_div_of_nonneg_right (mul_le_mul_of_nonneg_right hk1 (by positivity)) hP.le
  have hyk2 : (n : Rat) / d * (2 : Rat) ^ x / (2 : Rat) ^ u < (2 : Rat) ^ (k + x - u + 1) := by
    rw [show k + x - u + 1 = (k + 1) + x - u by ring, zpow_sub₀ h2, zpow_add₀ h2]
    exact div_lt_div_of_pos_right (mul_lt_mul_of_pos_right hk2 (by positivity)) hP
  have hq : (n : Rat) / d * (2 : Rat) ^ x
      = (n : Rat) / d * (2 : Rat) ^ x / (2 : Rat) ^ u * (2 : Rat) ^ u := by
    rw [div_mul_cancel₀ _ hP.ne']
  generalize (n : Rat) / d * (2 : Rat) ^ x / (2 : Rat) ^ u = Y at hr hyk1 hyk2 hq
  rw [hq]
  obtain ⟨hr1, hr2⟩ := abs_le.mp hr
  -- bounds on the rounded significand
  have hm0 : (-126 ≤ k + x → 2 ^ 23 ≤ m0 ∧ m0 ≤ 2 ^ 24 ∧ (2 : Rat) ^ 23 ≤ Y)
      ∧ (k + x < -126 → m0 ≤ 2 ^ 23) := by
    constructor
    · intro h
      rcases hu with ⟨hu1, -⟩ | ⟨-, hu2⟩
      · rw [hu1] at hyk1 hyk2
        rw [show k + x - (k + x - 23) = 23 by ring] at hyk1
        rw [show k + x - (k + x - 23) + 1 = 24 by ring] at hyk2
        have e1 : (2 : Rat) ^ (23 : Int) = 8388608 := by norm_num
        have e2 : (2 : Rat) ^ (24 : Int) = 16777216 := by norm_num
        rw [e1] at hyk1
        rw [e2] at hyk2
        have a1 : (8388607 : Rat) < (m0 : Rat) := by linarith
        have a2 : (m0 : Rat) < 16777217 := by linarith
        have a1n : 8388607 < m0 := by exact_mod_cast a1
        have a2n : m0 < 16777217 := by exact_mod_cast a2
        refine ⟨by norm_num; omega, by norm_num; omega, by norm_num; linarith⟩
      · omega
    · intro h
      rcases hu with ⟨-, hu2⟩ | ⟨hu1, -⟩
      · omega
      · rw [hu1] at hyk2
        have hle : (2 : Rat) ^ (k + x - -149 + 1) ≤ (2 : Rat) ^ (23 : Int) :=
          zpow_le_zpow_right₀ (by norm_num) (by omega)
        have e1 : (2 : Rat) ^ (23 : Int) = 8388608 := by norm_num
        rw [e1] at hle
        have a2 : (m0 : Rat) < 8388609 := by linarith
        have a2n : m0 < 8388609 := by exact_mod_cast a2
        norm_num; omega
  have hu149 : -149 ≤ u := by rcases hu with ⟨h1, h2⟩ | ⟨h1, -⟩ <;> omega
  have herr : |(m0 : Rat) * (2 : Rat) ^ u - Y * (2 : Rat) ^ u| ≤ (2 : Rat) ^ u / 2 := by
    rw [← sub_mul, abs_mul, abs_of_pos hP]
    calc |(m0 : Rat) - Y| * (2 : Rat) ^ u ≤ 1 / 2 * (2 : Rat) ^ u :=
          mul_le_mul_of_nonneg_right hr hP.le
      _ = (2 : Rat) ^ u / 2 := by ring
  refine ⟨?_, ?_, ?_⟩
  · intro s m e hres
    rw [hun] at hres
    split_ifs at hres with c1 c2 c3 c4
    · -- zero
      simp only [CFloat.fin.injEq] at hres
      obtain ⟨rfl, rfl, rfl⟩ := hres
      refine ⟨rfl, by norm_num, Or.inl ⟨rfl, rfl, ?_⟩⟩
      rcases hu with ⟨-, hu2⟩ | ⟨hu1, -⟩
      · have := (hm0.1 hu2).1; omega
      · subst c1
        rw [hu1]
        have e1 : (2 : Rat) ^ (-150 : Int) = 1 / 2 * (2 : Rat) ^ (-149 : Int) := by
          rw [show (-150 : Int) = -149 - 1 by norm_num, zpow_sub₀ h2]; ring
        rw [e1]
        have hp : (0 : Rat) < (2 : Rat) ^ (-149 : Int) := by positivity
        have : Y ≤ 1 / 2 := by
          have h := hr1
          push_cast at h
          linarith
        exact mul_le_mul_of_nonneg_right this hp.le
    · -- carry into the next binade
      simp only [CFloat.fin.injEq] at hres
      obtain ⟨rfl, rfl, rfl⟩ := hres
      refine ⟨rfl, by norm_num, Or.inr ⟨by norm_num, by omega, by omega, Or.inl (le_refl _), ?_⟩⟩
      subst c2
      have e1 : ((2 ^ 23 : Nat) : Rat) * (2 : Rat) ^ (u + 1) = ((2 ^ 24 : Nat) : Rat) * (2 : Rat) ^ u := by
        rw [zpow_add₀ h2]; norm_num; ring
      rw [e1]
      refine le_trans herr ?_
      rw [zpow_add₀ h2]
      have : (0 : Rat) < (2 : Rat) ^ u := hP
      linarith [this]
    · simp only [CFloat.fin.injEq] at hres
      obtain ⟨rfl, rfl, rfl⟩ := hres
      have hlt : m0 < 2 ^ 24 := by
        rcases hu with ⟨-, hu2⟩ | ⟨-, hu2⟩
        · have := (hm0.1 hu2).2.1; omega
        · have := hm0.2 hu2; norm_num at this ⊢; omega
      refine ⟨rfl, hlt, Or.inr ⟨c1, hu149, by omega, ?_, herr⟩⟩
      rcases hu with ⟨-, hu2⟩ | ⟨hu1, -⟩
      · exact Or.inl (hm0.1 hu2).1
      · exact Or.inr hu1
  · intro s hres
    rw [hun] at hres
    have hbig : (104 : Int) ≤ u → ((2 : Rat) ^ 24 - 1 / 2) ≤ Y →
        ((2 : Rat) ^ 24 - 1 / 2) * (2 : Rat) ^ (104 : Int) ≤ Y * (2 : Rat) ^ u := by
      intro h1 h3
      have hz : (2 : Rat) ^ (104 : Int) ≤ (2 : Rat) ^ u := zpow_le_zpow_right₀ (by norm_num) h1
      have hpos : (0 : Rat) < (2 : Rat) ^ (104 : Int) := by positivity
      have hc : (0 : Rat) < (2 : Rat) ^ 24 - 1 / 2 := by norm_num
      calc ((2 : Rat) ^ 24 - 1 / 2) * (2 : Rat) ^ (104 : Int)
          ≤ Y * (2 : Rat) ^ (104 : Int) := mul_le_mul_of_nonneg_right h3 hpos.le
        _ ≤ Y * (2 : Rat) ^ u := mul_le_mul_of_nonneg_left hz (by linarith)
    split_ifs at hres with c1 c2 c3 c4
    · simp only [CFloat.inf.injEq] at hres
      refine ⟨hres.symm, hbig (by omega) ?_⟩
      subst c2
      have : ((2 ^ 24 : Nat) : Rat) = (2 : Rat) ^ 24 := by norm_num
      rw [this] at hr2
      linarith
    · simp only [CFloat.inf.injEq] at hres
      refine ⟨hres.symm, ?_⟩
      rcases hu with ⟨hu1, hu2⟩ | ⟨hu1, -⟩
      · have hY := (hm0.1 hu2).2.2
        have hz : (2 : Rat) ^ (105 : Int) ≤ (2 : Rat) ^ u :=
          zpow_le_zpow_right₀ (by norm_num) (by omega)
        have hpos : (0 : Rat) < (2 : Rat) ^ (105 : Int) := by positivity
        have e1 : (2 : Rat) ^ (105 : Int) = 2 * (2 : Rat) ^ (104 : Int) := by
          rw [show (105 : Int) = 104 + 1 by norm_num, zpow_add₀ h2]; ring
        have hpos4 : (0 : Rat) < (2 : Rat) ^ (104 : Int) := by positivity
        calc ((2 : Rat) ^ 24 - 1 / 2) * (2 : Rat) ^ (104 : Int)
            ≤ (2 : Rat) ^ 23 * (2 : Rat) ^ (105 : Int) := by
              rw [e1]; nlinarith
          _ ≤ Y * (2 : Rat) ^ (105 : Int) := mul_le_mul_of_nonneg_right hY hpos.le
          _ ≤ Y * (2 : Rat) ^ u := mul_le_mul_of_nonneg_left hz (by linarith [hY])
      · omega
  · rw [hun]
    split_ifs <;> simp

/-- Rounding matters for the conversion to `long`: the `float` product `0.7f * 10.0f`
is exactly `7.0f` and converts to 7, whereas the product of the two values as
rational numbers is below 7. -/
theorem mul_rounding_example :
    CFloat.lit 7 10 = CFloat.fin false 11744051 (-24)
    ∧ (CFloat.lit 7 10).mul (CFloat.lit 10 1) = CFloat.fin false 14680064 (-21)
    ∧ ((CFloat.lit 7 10).mul (CFloat.lit 10 1)).toLong = 7
    ∧ truncRat ((11744051 : Rat) / 16777216 * 10) = 6 := by
  refine ⟨by decide, by decide, by decide, ?_⟩
  have h0 : (0 : Rat) ≤ (11744051 : Rat) / 16777216 * 10 := by norm_num
  rw [truncRat, if_pos h0, Int.floor_eq_iff]
  constructor <;> norm_num

/-! ### The member functions -/

/-- The result of a conversion to `long` is a value of `long`. -/
theorem toLong_inLong (a : CFloat) : InLong a.toLong := by
  unfold CFloat.toLong InLong
  cases a with
  | fin neg m e =>
      simp only
      split_ifs <;> first | assumption | simp [LONG_MIN, LONG_MAX]
  | inf neg => simp [LONG_MIN, LONG_MAX]
  | nan => simp [LONG_MIN, LONG_MAX]

/-- Reduction to `long` does nothing to a value of `long`. -/
theorem wrapLong_of_inLong {z : Int} (h : InLong z) : wrapLong z = z := by
  unfold InLong LONG_MIN LONG_MAX at h
  unfold wrapLong
  omega

/-- The `long` difference of a `long` sum and its first summand is the second one. -/
theorem wrapLong_ladd_sub (a b : Int) (hb : InLong b) : wrapLong (ladd a b - a) = b := by
  unfold InLong LONG_MIN LONG_MAX at hb
  unfold ladd wrapLong
  omega

/-- The calls made up to the trigger query. -/
theorem afterTrigger_calls (w : World σ) (x : σ.SAMPLE) :
    (afterTrigger w x).2.calls = w.calls ++ [Call.phasorTick, Call.triggerSampleAndTick x] := by
  simp [afterTrigger, callTriggerSampleAndTick, callPhasorTick]

/-- Ticking the phasor and querying the trigger leave the pool alone. -/
theorem afterTrigger_grainMgr (w : World σ) (x : σ.SAMPLE) :
    (afterTrigger w x).2.obj.grainMgr = w.obj.grainMgr := by
  simp [afterTrigger, callTriggerSampleAndTick, callPhasorTick]

/-- Ticking the phasor and querying the trigger leave the sound buffer alone. -/
theorem afterTrigger_sndbuf (w : World σ) (x : σ.SAMPLE) :
    (afterTrigger w x).2.obj.sndbuf = w.obj.sndbuf := by
  simp [afterTrigger, callTriggerSampleAndTick, callPhasorTick]

/-- Lines 95 to 130 when the trigger does not fire. -/
theorem spawnBlock_not_fired (w : World σ) (x : σ.SAMPLE) (h : (afterTrigger w x).1 = false) :
    spawnBlock w x = (afterTrigger w x).2 := by
  unfold afterTrigger at h
  simp [spawnBlock, afterTrigger, h]

/-- Lines 95 to 130 when the trigger fires and the pool has no free slot. -/
theorem spawnBlock_saturated (w : World σ) (x : σ.SAMPLE) (h : (afterTrigger w x).1 = true)
    (hsat : w.obj.grainMgr.Allocate = none) :
    spawnBlock w x = (afterTrigger w x).2.log Call.allocate := by
  have hsat2 : (afterTrigger w x).2.obj.grainMgr.Allocate = none := by
    rw [afterTrigger_grainMgr]; exact hsat
  unfold afterTrigger at h hsat2
  simp [spawnBlock, afterTrigger, h, callAllocate, hsat2, World.log]

/-- Lines 95 to 130 when the trigger fires and a slot is handed out. -/
theorem spawnBlock_spawn (w : World σ) (x : σ.SAMPLE) (g : Nat) (mgr : dbGrainMgr σ)
    (h : (afterTrigger w x).1 = true) (ha : w.obj.grainMgr.Allocate = some (g, mgr)) :
    spawnBlock w x =
      callGrainInit
        (getGrainStop (callPhasorSample (afterAllocate w x mgr)).2
          (callPhasorSample (afterAllocate w x mgr)).1.toLong).2
        g (callPhasorSample (afterAllocate w x mgr)).1.toLong
        (getGrainStop (callPhasorSample (afterAllocate w x mgr)).2
          (callPhasorSample (afterAllocate w x mgr)).1.toLong).1
        w.obj.grainRate w.obj.windowFilter := by
  have ha2 : (afterTrigger w x).2.obj.grainMgr.Allocate = some (g, mgr) := by
    rw [afterTrigger_grainMgr]; exact ha
  unfold afterTrigger at h ha2
  have hr : ∀ (v : World σ) (s : Int), (getGrainStop v s).2.obj.grainRate = v.obj.grainRate
      ∧ (getGrainStop v s).2.obj.windowFilter = v.obj.windowFilter := by
    intro v s
    unfold getGrainStop
    split_ifs <;> simp [callRand32HalfRange]
  simp only [spawnBlock, afterTrigger, h, callAllocate, ha2, afterAllocate, if_true]
  rw [(hr _ _).1, (hr _ _).2]
  simp [callPhasorSample, callTriggerSampleAndTick, callPhasorTick]

/-- The summation pass makes one `SampleAndTick` call for each grain visited. -/
theorem sumLoop_calls (gs : List Nat) (w : World σ) (s : σ.SAMPLE) :
    (sumLoop gs w s).2.calls = w.calls ++ gs.map Call.grainSampleAndTick := by
  induction gs generalizing w s with
  | nil => simp [sumLoop]
  | cons g gs ih =>
      simp only [sumLoop, ih, List.map_cons]
      simp [callGrainSampleAndTick]

/-- The summation pass returns the left fold of the sampled values. -/
theorem sumLoop_value (gs : List Nat) (w : World σ) (s : σ.SAMPLE) :
    (sumLoop gs w s).1 = (sampleEach gs w).foldl σ.add s := by
  induction gs generalizing w s with
  | nil => simp [sumLoop, sampleEach]
  | cons g gs ih => simp only [sumLoop, ih, sampleEach, List.foldl_cons]

/-- The summation pass leaves the collection of active grains alone. -/
theorem sumLoop_active (gs : List Nat) (w : World σ) (s : σ.SAMPLE) :
    (sumLoop gs w s).2.obj.grainMgr.ActiveGrains = w.obj.grainMgr.ActiveGrains := by
  induction gs generalizing w s with
  | nil => simp [sumLoop]
  | cons g gs ih =>
      simp only [sumLoop, ih]
      simp [callGrainSampleAndTick]

/-- The calls made by lines 132 to 138. -/
theorem mixBlock_calls (w : World σ) :
    (mixBlock w).2.calls
      = w.calls ++ w.obj.grainMgr.ActiveGrains.map Call.grainSampleAndTick ++ [Call.prune] := by
  simp [mixBlock, callPrune, sumLoop_calls]

/-- Lines 95 to 130 only append to the call log. -/
theorem spawnBlock_calls_prefix (w : World σ) (x : σ.SAMPLE) :
    (spawnBlock w x).calls = w.calls ++ spawnCalls w x := by
  have key : ∃ l, (spawnBlock w x).calls = w.calls ++ l := by
    cases h : (afterTrigger w x).1 with
    | false =>
        rw [spawnBlock_not_fired w x h, afterTrigger_calls]
        exact ⟨_, rfl⟩
    | true =>
        cases ha : w.obj.grainMgr.Allocate with
        | none =>
            rw [spawnBlock_saturated w x h ha]
            simp only [World.log, afterTrigger_calls, List.append_assoc]
            exact ⟨_, rfl⟩
        | some p =>
            obtain ⟨g, mgr⟩ := p
            rw [spawnBlock_spawn w x g mgr h ha]
            unfold getGrainStop
            split_ifs <;>
              simp only [callGrainInit, callRand32HalfRange, callPhasorSample, afterAllocate,
                afterTrigger_calls, List.append_assoc] <;>
              exact ⟨_, rfl⟩
  obtain ⟨l, hl⟩ := key
  simp [spawnCalls, hl]

/-- The calls made by a tick with `bypassGrains` clear. -/
theorem tickCalls_eq (w : World σ) (x : σ.SAMPLE) (hb : w.obj.bypassGrains = false) :
    tickCalls w x = spawnCalls w x
      ++ (spawnBlock w x).obj.grainMgr.ActiveGrains.map Call.grainSampleAndTick
      ++ [Call.prune] := by
  simp [tickCalls, Tick, hb, mixBlock_calls, spawnBlock_calls_prefix]

/-- The calls of lines 95 to 130 when the trigger does not fire. -/
theorem spawnCalls_not_fired (w : World σ) (x : σ.SAMPLE) (h : (afterTrigger w x).1 = false) :
    spawnCalls w x = [Call.phasorTick, Call.triggerSampleAndTick x] := by
  simp [spawnCalls, spawnBlock_not_fired w x h, afterTrigger_calls]

/-- The calls of lines 95 to 130 when the pool has no free slot. -/
theorem spawnCalls_saturated (w : World σ) (x : σ.SAMPLE) (h : (afterTrigger w x).1 = true)
    (hsat : w.obj.grainMgr.Allocate = none) :
    spawnCalls w x = [Call.phasorTick, Call.triggerSampleAndTick x, Call.allocate] := by
  simp [spawnCalls, spawnBlock_saturated w x h hsat, afterTrigger_calls, World.log]

/-- The calls of lines 95 to 130 when a grain is spawned. -/
theorem spawnCalls_spawn (w : World σ) (x : σ.SAMPLE) (g : Nat) (mgr : dbGrainMgr σ)
    (h : (afterTrigger w x).1 = true) (ha : w.obj.grainMgr.Allocate = some (g, mgr)) :
    spawnCalls w x
      = [Call.phasorTick, Call.triggerSampleAndTick x, Call.allocate, Call.phasorSample]
        ++ (if w.obj.grainPeriodVariance.ne0 then [Call.rand32HalfRange (jitterRange w.obj)]
            else [])
        ++ [Call.grainInit g (spawnStart w x mgr) (spawnStop w x mgr) w.obj.grainRate
              w.obj.windowFilter] := by
  have hv : (callPhasorSample (afterAllocate w x mgr)).2.obj.grainPeriodVariance
      = w.obj.grainPeriodVariance := by
    simp [callPhasorSample, afterAllocate, afterTrigger, callTriggerSampleAndTick, callPhasorTick]
  have hp : (callPhasorSample (afterAllocate w x mgr)).2.obj.grainPeriod
      = w.obj.grainPeriod := by
    simp [callPhasorSample, afterAllocate, afterTrigger, callTriggerSampleAndTick, callPhasorTick]
  have hs : (callPhasorSample (afterAllocate w x mgr)).2.obj.sampleRate
      = w.obj.sampleRate := by
    simp [callPhasorSample, afterAllocate, afterTrigger, callTriggerSampleAndTick, callPhasorTick]
  have hc : (callPhasorSample (afterAllocate w x mgr)).2.calls
      = w.calls ++ [Call.phasorTick, Call.triggerSampleAndTick x, Call.allocate,
          Call.phasorSample] := by
    simp [callPhasorSample, afterAllocate, afterTrigger_calls]
  unfold spawnCalls
  rw [spawnBlock_spawn w x g mgr h ha]
  unfold spawnStop spawnStart
  cases hn : w.obj.grainPeriodVariance.ne0 with
  | false =>
      simp [callGrainInit, getGrainStop, hv, hn, hc]
  | true =>
      simp [callGrainInit, getGrainStop, hv, hn, hc, callRand32HalfRange, jitterRange, grainSamps,
        hp, hs]

/-- The calls made by a tick with `bypassGrains` set. -/
theorem tickCalls_bypass (w : World σ) (x : σ.SAMPLE) (hb : w.obj.bypassGrains = true) :
    tickCalls w x = [Call.sndbufSample] := by
  simp [tickCalls, Tick, hb, callSndbufSample]

/-- The member `getGrainStop` when `grainPeriodVariance` is 0. -/
theorem getGrainStop_of_ne0_false (v : World σ) (s : Int)
    (hv : v.obj.grainPeriodVariance.ne0 = false) :
    getGrainStop v s = (ladd s (grainSamps v.obj), v) := by
  simp [getGrainStop, hv, grainSamps]

/-- The member `getGrainStop` when `grainPeriodVariance` is not 0. -/
theorem getGrainStop_of_ne0_true (v : World σ) (s : Int)
    (hv : v.obj.grainPeriodVariance.ne0 = true) :
    getGrainStop v s
      = (ladd (ladd s (grainSamps v.obj)) (σ.rand32HalfRange (jitterRange v.obj) v.rand).1,
         { v with rand := (σ.rand32HalfRange (jitterRange v.obj) v.rand).2,
                  calls := v.calls ++ [Call.rand32HalfRange (jitterRange v.obj)] }) := by
  simp [getGrainStop, hv, grainSamps, jitterRange, callRand32HalfRange]

/-- The sampling of the phasor in a spawn leaves the configuration as it was. -/
theorem spawn_config (w : World σ) (x : σ.SAMPLE) (mgr : dbGrainMgr σ) :
    (callPhasorSample (afterAllocate w x mgr)).2.obj.grainPeriodVariance
        = w.obj.grainPeriodVariance
    ∧ grainSamps (callPhasorSample (afterAllocate w x mgr)).2.obj = grainSamps w.obj
    ∧ jitterRange (callPhasorSample (afterAllocate w x mgr)).2.obj = jitterRange w.obj := by
  simp [callPhasorSample, afterAllocate, afterTrigger, callTriggerSampleAndTick, callPhasorTick,
    grainSamps, jitterRange]

/-- The stop sample of a spawn when `grainPeriodVariance` is 0. -/
theorem spawnStop_of_ne0_false (w : World σ) (x : σ.SAMPLE) (mgr : dbGrainMgr σ)
    (hv : w.obj.grainPeriodVariance.ne0 = false) :
    spawnStop w x mgr = ladd (spawnStart w x mgr) (grainSamps w.obj) := by
  unfold spawnStop
  rw [getGrainStop_of_ne0_false _ _ (by rw [(spawn_config w x mgr).1]; exact hv),
    (spawn_config w x mgr).2.1]

/-- The stop sample of a spawn when `grainPeriodVariance` is not 0. -/
theorem spawnStop_of_ne0_true (w : World σ) (x : σ.SAMPLE) (mgr : dbGrainMgr σ)
    (hv : w.obj.grainPeriodVariance.ne0 = true) :
    spawnStop w x mgr
      = ladd (ladd (spawnStart w x mgr) (grainSamps w.obj))
          (σ.rand32HalfRange (jitterRange w.obj)
            (callPhasorSample (afterAllocate w x mgr)).2.rand).1 := by
  unfold spawnStop
  rw [getGrainStop_of_ne0_true _ _ (by rw [(spawn_config w x mgr).1]; exact hv),
    (spawn_config w x mgr).2.1, (spawn_config w x mgr).2.2]

/-- A slot handed out by `Allocate()` is a slot of the pool that was free, and is
entered in front of the active grains. -/
theorem allocate_some {mgr m : dbGrainMgr σ} {g : Nat} (h : mgr.Allocate = some (g, m)) :
    g < mgr.GrainPoolSize ∧ g ∉ mgr.ActiveGrains
    ∧ m = { mgr with ActiveGrains := g :: mgr.ActiveGrains } := by
  unfold dbGrainMgr.Allocate at h
  split at h
  · next g1 hfind =>
      simp only [Option.some.injEq, Prod.mk.injEq] at h
      obtain ⟨hg, hm⟩ := h
      subst hg
      have h1 := List.find?_some hfind
      have h2 := List.mem_of_find?_eq_some hfind
      simp only [decide_eq_true_eq] at h1
      exact ⟨List.mem_range.mp h2, h1, hm.symm⟩
  · simp at h

/-- When every slot of the pool is active, `Allocate()` refuses. -/
theorem allocate_eq_none {mgr : dbGrainMgr σ}
    (h : ∀ i, i < mgr.GrainPoolSize → i ∈ mgr.ActiveGrains) : mgr.Allocate = none := by
  have hfind : (List.range mgr.GrainPoolSize).find? (fun i => decide (i ∉ mgr.ActiveGrains))
      = none := by
    rw [List.find?_eq_none]
    intro i hi
    simpa using h i (List.mem_range.mp hi)
  unfold dbGrainMgr.Allocate
  rw [hfind]

/-- The pool after a spawn: the pool `Allocate()` left, with slot `g` initialised. -/
theorem spawnBlock_grainMgr_spawn (w : World σ) (x : σ.SAMPLE) (g : Nat) (mgr : dbGrainMgr σ)
    (h : (afterTrigger w x).1 = true) (ha : w.obj.grainMgr.Allocate = some (g, mgr)) :
    (spawnBlock w x).obj.grainMgr
      = mgr.Init g (spawnStart w x mgr) (spawnStop w x mgr) w.obj.grainRate
          w.obj.windowFilter := by
  have hm : ∀ (v : World σ) (s : Int), (getGrainStop v s).2.obj.grainMgr = v.obj.grainMgr := by
    intro v s
    unfold getGrainStop
    split_ifs <;> simp [callRand32HalfRange]
  rw [spawnBlock_spawn w x g mgr h ha]
  simp only [callGrainInit, hm, spawnStop, spawnStart]
  simp [callPhasorSample, afterAllocate]

/-- The grains the summation pass of `Tick(x)` visits: those active before, and in
front of them the grain spawned in this tick, if there is one. -/
theorem spawnBlock_active (w : World σ) (x : σ.SAMPLE) :
    ((afterTrigger w x).1 = true ∧ ∃ g mgr, w.obj.grainMgr.Allocate = some (g, mgr)
        ∧ g ∉ w.obj.grainMgr.ActiveGrains
        ∧ (spawnBlock w x).obj.grainMgr.ActiveGrains = g :: w.obj.grainMgr.ActiveGrains)
    ∨ (((afterTrigger w x).1 = false ∨ w.obj.grainMgr.Allocate = none)
        ∧ (spawnBlock w x).obj.grainMgr = w.obj.grainMgr) := by
  cases hf : (afterTrigger w x).1 with
  | false =>
      right
      exact ⟨Or.inl rfl, by rw [spawnBlock_not_fired w x hf, afterTrigger_grainMgr]⟩
  | true =>
      cases ha : w.obj.grainMgr.Allocate with
      | none =>
          right
          refine ⟨Or.inr rfl, ?_⟩
          rw [spawnBlock_saturated w x hf ha]
          simp [World.log, afterTrigger_grainMgr]
      | some p =>
          obtain ⟨g, mgr⟩ := p
          left
          obtain ⟨-, hg, hm⟩ := allocate_some ha
          refine ⟨rfl, g, mgr, rfl, hg, ?_⟩
          rw [spawnBlock_grainMgr_spawn w x g mgr hf ha, hm]
          simp [dbGrainMgr.Init]

/-- The calls of lines 95 to 130 contain neither a `SampleAndTick` of a grain nor a
`Prune()`. -/
theorem spawnCalls_no_mix (w : World σ) (x : σ.SAMPLE) :
    (∀ g, (spawnCalls w x).countP (Call.isSampleOf g) = 0)
    ∧ (spawnCalls w x).countP Call.isPrune = 0 := by
  cases hf : (afterTrigger w x).1 with
  | false =>
      rw [spawnCalls_not_fired w x hf]
      simp [Call.isSampleOf, Call.isPrune]
  | true =>
      cases ha : w.obj.grainMgr.Allocate with
      | none =>
          rw [spawnCalls_saturated w x hf ha]
          simp [Call.isSampleOf, Call.isPrune]
      | some p =>
          obtain ⟨g, mgr⟩ := p
          rw [spawnCalls_spawn w x g mgr hf ha]
          cases w.obj.grainPeriodVariance.ne0 <;> simp [Call.isSampleOf, Call.isPrune]

/-- Counting the `SampleAndTick` calls of slot `g` among the calls of a pass. -/
theorem countP_isSampleOf_map (S : Type) (g : Nat) (l : List Nat) :
    (l.map (Call.grainSampleAndTick : Nat → Call S)).countP (Call.isSampleOf g) = l.count g := by
  induction l with
  | nil => simp
  | cons a l ih =>
      simp only [List.map_cons, List.countP_cons, ih, List.count_cons, Call.isSampleOf]

/-- A summation pass makes no `Prune()` call. -/
theorem countP_isPrune_map (S : Type) (l : List Nat) :
    (l.map (Call.grainSampleAndTick : Nat → Call S)).countP Call.isPrune = 0 := by
  induction l with
  | nil => simp
  | cons a l ih => simp [List.countP_cons, ih, Call.isPrune]

/-- The active grains after a tick with `bypassGrains` clear. -/
theorem tick_active (w : World σ) (x : σ.SAMPLE) (hb : w.obj.bypassGrains = false) :
    (Tick w x).2.obj.grainMgr.ActiveGrains
      = (spawnBlock w x).obj.grainMgr.ActiveGrains.filter
          (fun g => !σ.grainDone ((afterSum w x).obj.grainMgr.slots g)) := by
  simp [Tick, hb, mixBlock, callPrune, dbGrainMgr.Prune, afterSum, sumLoop_active]

/-- The value returned by a tick with `bypassGrains` clear. -/
theorem tick_value (w : World σ) (x : σ.SAMPLE) (hb : w.obj.bypassGrains = false) :
    (Tick w x).1
      = (sampleEach (spawnBlock w x).obj.grainMgr.ActiveGrains (spawnBlock w x)).foldl
          σ.add σ.zero := by
  simp [Tick, hb, mixBlock, sumLoop_value]

/-- The summation pass depends on the grain pool and the sound buffer only. -/
theorem sumLoop_congr (gs : List Nat) (w v : World σ) (s : σ.SAMPLE)
    (hm : w.obj.grainMgr = v.obj.grainMgr) (hs : w.obj.sndbuf = v.obj.sndbuf) :
    (sumLoop gs w s).1 = (sumLoop gs v s).1
    ∧ (sumLoop gs w s).2.obj.grainMgr = (sumLoop gs v s).2.obj.grainMgr
    ∧ (sumLoop gs w s).2.obj.sndbuf = (sumLoop gs v s).2.obj.sndbuf := by
  induction gs generalizing w v s with
  | nil => exact ⟨rfl, hm, hs⟩
  | cons g gs ih =>
      simp only [sumLoop]
      have h1 : (callGrainSampleAndTick w g).1 = (callGrainSampleAndTick v g).1 := by
        simp [callGrainSampleAndTick, hm, hs]
      have h2 : (callGrainSampleAndTick w g).2.obj.grainMgr
          = (callGrainSampleAndTick v g).2.obj.grainMgr := by
        simp [callGrainSampleAndTick, hm, hs]
      have h3 : (callGrainSampleAndTick w g).2.obj.sndbuf
          = (callGrainSampleAndTick v g).2.obj.sndbuf := by
        simp [callGrainSampleAndTick, hm, hs]
      rw [h1]
      exact ih _ _ _ h2 h3

/-- Lines 132 to 138 depend on the grain pool and the sound buffer only. -/
theorem mixBlock_congr (w v : World σ)
    (hm : w.obj.grainMgr = v.obj.grainMgr) (hs : w.obj.sndbuf = v.obj.sndbuf) :
    (mixBlock w).1 = (mixBlock v).1
    ∧ (mixBlock w).2.obj.grainMgr = (mixBlock v).2.obj.grainMgr
    ∧ (mixBlock w).2.obj.sndbuf = (mixBlock v).2.obj.sndbuf := by
  have h := sumLoop_congr w.obj.grainMgr.ActiveGrains w v σ.zero hm hs
  simp only [mixBlock, callPrune]
  rw [← hm]
  exact ⟨h.1, by rw [h.2.1], h.2.2⟩

/-- Lines 95 to 130 leave the sound buffer alone. -/
theorem spawnBlock_sndbuf (w : World σ) (x : σ.SAMPLE) :
    (spawnBlock w x).obj.sndbuf = w.obj.sndbuf := by
  cases hf : (afterTrigger w x).1 with
  | false => rw [spawnBlock_not_fired w x hf, afterTrigger_sndbuf]
  | true =>
      cases ha : w.obj.grainMgr.Allocate with
      | none =>
          rw [spawnBlock_saturated w x hf ha]
          simp [World.log, afterTrigger_sndbuf]
      | some p =>
          obtain ⟨g, mgr⟩ := p
          have hm : ∀ (v : World σ) (s : Int), (getGrainStop v s).2.obj.sndbuf = v.obj.sndbuf := by
            intro v s
            unfold getGrainStop
            split_ifs <;> simp [callRand32HalfRange]
          rw [spawnBlock_spawn w x g mgr hf ha]
          simp only [callGrainInit, hm]
          simp [callPhasorSample, afterAllocate, afterTrigger_sndbuf]

/-- The stop sample `getGrainStop(start)` returns is not below `start` when
`grainSamps` is not negative, the jitter draw (if one is taken) is within a finite
half-range that does not exceed `grainSamps`, and the `long` sums do not overflow. -/
theorem getGrainStop_ge_start_of (w : World σ) (start : Int)
    (hgs : 0 ≤ grainSamps w.obj)
    (hjit : w.obj.grainPeriodVariance.ne0 = true →
      ∃ r : Rat, (jitterRange w.obj).toRat = some r ∧ |(jitterDraw w : Rat)| ≤ r
        ∧ r ≤ (grainSamps w.obj : Rat))
    (hov : InLong (start + grainSamps w.obj)
      ∧ (w.obj.grainPeriodVariance.ne0 = true →
          InLong (start + grainSamps w.obj + jitterDraw w))) :
    start ≤ (getGrainStop w start).1 := by
  cases hn : w.obj.grainPeriodVariance.ne0 with
  | false =>
      rw [getGrainStop_of_ne0_false w start hn]
      show start ≤ ladd start (grainSamps w.obj)
      unfold ladd
      rw [wrapLong_of_inLong hov.1]
      omega
  | true =>
      obtain ⟨r, -, hd, hr⟩ := hjit hn
      have hd2 : |(jitterDraw w : Rat)| ≤ (grainSamps w.obj : Rat) := le_trans hd hr
      have hd3 : -(grainSamps w.obj : Rat) ≤ (jitterDraw w : Rat) := (abs_le.mp hd2).1
      have hd4 : -(grainSamps w.obj) ≤ jitterDraw w := by exact_mod_cast hd3
      rw [getGrainStop_of_ne0_true w start hn]
      show start ≤ ladd (ladd start (grainSamps w.obj)) (jitterDraw w)
      unfold ladd
      rw [wrapLong_of_inLong hov.1, wrapLong_of_inLong (hov.2 hn)]
      omega

/-- A jitter half-range above `grainSamps` can put the stop sample below the start:
after `SetGrainPeriodVariance(2.0f)` the half-range is 17640 for 8820 samples, and
the draw -17640 turns the start sample 1000 into the stop sample -7820. -/
theorem getGrainStop_wide_variance_example :
    grainSamps demoWideWorld.obj = 8820
    ∧ jitterRange demoWideWorld.obj = CFloat.fin false 9031680 (-9)
    ∧ (jitterRange demoWideWorld.obj).toRat = some 17640
    ∧ jitterDraw demoWideWorld = -17640
    ∧ (getGrainStop demoWideWorld 1000).1 = -7820 := by
  refine ⟨by decide, by decide, ?_, by decide, by decide⟩
  have h : jitterRange demoWideWorld.obj = CFloat.fin false 9031680 (-9) := by decide
  rw [h]
  simp only [CFloat.toRat]
  norm_num

/-- A `long` sum that overflows puts the stop sample below the start: 8820 samples
after the start sample `LONG_MAX - 100` is a negative stop sample. -/
theorem getGrainStop_overflow_example :
    InLong (LONG_MAX - 100)
    ∧ (getGrainStop demoWorld (LONG_MAX - 100)).1 = LONG_MIN + 8719
    ∧ (getGrainStop demoWorld (LONG_MAX - 100)).1 < LONG_MAX - 100 := by
  decide

/-- The summation pass leaves the size of the pool alone. -/
theorem sumLoop_poolSize (gs : List Nat) (w : World σ) (s : σ.SAMPLE) :
    (sumLoop gs w s).2.obj.grainMgr.GrainPoolSize = w.obj.grainMgr.GrainPoolSize := by
  induction gs generalizing w s with
  | nil => simp [sumLoop]
  | cons g gs ih =>
      simp only [sumLoop, ih]
      simp [callGrainSampleAndTick]

/-- The constructor establishes the pool invariant. -/
theorem new_poolOk (sr : CFloat) (sb : σ.SndBuf) (t : σ.Trigger) (p : σ.Phasor) (g : σ.Grain) :
    PoolOk (dbGrainBuf.new sr sb t p g : dbGrainBuf σ).grainMgr := by
  simp [PoolOk, dbGrainBuf.new]

/-- `Tick` keeps the pool invariant and the size of the pool, so the number of
active grains never exceeds the size of the pool. -/
theorem tick_poolOk (w : World σ) (x : σ.SAMPLE) (h : PoolOk w.obj.grainMgr) :
    PoolOk (Tick w x).2.obj.grainMgr
    ∧ (Tick w x).2.obj.grainMgr.GrainPoolSize = w.obj.grainMgr.GrainPoolSize
    ∧ (Tick w x).2.obj.grainMgr.GetActiveGrainCount ≤ w.obj.grainMgr.GrainPoolSize := by
  have hlen : ∀ m : dbGrainMgr σ, PoolOk m → m.ActiveGrains.length ≤ m.GrainPoolSize := by
    intro m hm
    have hsub : m.ActiveGrains.toFinset ⊆ Finset.range m.GrainPoolSize := by
      intro g hg
      exact Finset.mem_range.mpr (hm.2 g (List.mem_toFinset.mp hg))
    have hcard := Finset.card_le_card hsub
    rw [List.toFinset_card_of_nodup hm.1, Finset.card_range] at hcard
    exact hcard
  have key : PoolOk (Tick w x).2.obj.grainMgr
      ∧ (Tick w x).2.obj.grainMgr.GrainPoolSize = w.obj.grainMgr.GrainPoolSize := by
    cases hb : w.obj.bypassGrains with
    | true =>
        have : (Tick w x).2.obj.grainMgr = w.obj.grainMgr := by
          simp [Tick, hb, callSndbufSample]
        rw [this]
        exact ⟨h, rfl⟩
    | false =>
        have hsp : PoolOk (spawnBlock w x).obj.grainMgr
            ∧ (spawnBlock w x).obj.grainMgr.GrainPoolSize = w.obj.grainMgr.GrainPoolSize := by
          rcases spawnBlock_active w x with ⟨hf, g, mgr, ha, hg, hact⟩ | ⟨-, hm⟩
          · obtain ⟨hlt, -, hmgr⟩ := allocate_some ha
            have hsize : (spawnBlock w x).obj.grainMgr.GrainPoolSize
                = w.obj.grainMgr.GrainPoolSize := by
              rw [spawnBlock_grainMgr_spawn w x g mgr hf ha, hmgr]
              simp [dbGrainMgr.Init]
            refine ⟨⟨?_, ?_⟩, hsize⟩
            · rw [hact]; exact List.nodup_cons.mpr ⟨hg, h.1⟩
            · intro i hi
              rw [hact] at hi
              rw [hsize]
              rcases List.mem_cons.mp hi with rfl | hi
              · exact hlt
              · exact h.2 i hi
          · rw [hm]; exact ⟨h, rfl⟩
        have hsz : (Tick w x).2.obj.grainMgr.GrainPoolSize
            = (spawnBlock w x).obj.grainMgr.GrainPoolSize := by
          simp [Tick, hb, mixBlock, callPrune, dbGrainMgr.Prune, sumLoop_poolSize]
        refine ⟨⟨?_, ?_⟩, hsz.trans hsp.2⟩
        · rw [tick_active w x hb]
          exact hsp.1.1.filter _
        · intro i hi
          rw [tick_active w x hb] at hi
          rw [hsz]
          exact hsp.1.2 i (List.mem_of_mem_filter hi)
  refine ⟨key.1, key.2, ?_⟩
  have := hlen _ key.1
  rw [key.2] at this
  exact this

/-- The loop of `Tick` carries out the summation pass of the specification: the
same values are added up, and the same grains and sound buffer are left. -/
theorem sumLoop_samplePass (gs : List Nat) (w : World σ) (s : σ.SAMPLE) :
    (sumLoop gs w s).1
        = (samplePass σ gs w.obj.grainMgr.slots w.obj.sndbuf).1.foldl σ.add s
    ∧ (sumLoop gs w s).2.obj.grainMgr.slots
        = (samplePass σ gs w.obj.grainMgr.slots w.obj.sndbuf).2.1
    ∧ (sumLoop gs w s).2.obj.sndbuf
        = (samplePass σ gs w.obj.grainMgr.slots w.obj.sndbuf).2.2 := by
  induction gs generalizing w s with
  | nil => exact ⟨rfl, rfl, rfl⟩
  | cons g gs ih =>
      have h := ih (callGrainSampleAndTick w g).2
        (σ.add s (callGrainSampleAndTick w g).1)
      have e1 : (callGrainSampleAndTick w g).2.obj.grainMgr.slots
          = Function.update w.obj.grainMgr.slots g
              (σ.grainSampleAndTick (w.obj.grainMgr.slots g) w.obj.sndbuf).2.1 := rfl
      have e2 : (callGrainSampleAndTick w g).2.obj.sndbuf
          = (σ.grainSampleAndTick (w.obj.grainMgr.slots g) w.obj.sndbuf).2.2 := rfl
      have e3 : (callGrainSampleAndTick w g).1
          = (σ.grainSampleAndTick (w.obj.grainMgr.slots g) w.obj.sndbuf).1 := rfl
      rw [e1, e2, e3] at h
      simp only [sumLoop, samplePass, List.foldl_cons]
      rw [e3]
      exact h

/-- A grain that is not listed is left alone by the summation pass. -/
theorem samplePass_not_mem (gs : List Nat) (slots : Nat → σ.Grain) (snd : σ.SndBuf) (g : Nat)
    (hg : g ∉ gs) : (samplePass σ gs slots snd).2.1 g = slots g := by
  induction gs generalizing slots snd with
  | nil => rfl
  | cons a gs ih =>
      have ha : g ≠ a := fun h => hg (h ▸ List.mem_cons_self _ _)
      have hgs : g ∉ gs := fun h => hg (List.mem_cons_of_mem _ h)
      simp only [samplePass]
      rw [ih _ _ hgs, Function.update_noteq ha]

/-- In a summation pass over a list without repetition every listed grain gets one
`SampleAndTick`: the value it returns is among the values summed, and the grain it
leaves is the grain after the pass. -/
theorem samplePass_each (gs : List Nat) (slots : Nat → σ.Grain) (snd : σ.SndBuf)
    (hn : gs.Nodup) :
    ∀ g ∈ gs, ∃ s : σ.SndBuf,
      (σ.grainSampleAndTick (slots g) s).1 ∈ (samplePass σ gs slots snd).1
      ∧ (samplePass σ gs slots snd).2.1 g = (σ.grainSampleAndTick (slots g) s).2.1 := by
  induction gs generalizing slots snd with
  | nil => intro g hg; cases hg
  | cons a gs ih =>
      obtain ⟨ha, hgs⟩ := List.nodup_cons.mp hn
      intro g hg
      rcases List.mem_cons.mp hg with rfl | hg
      · refine ⟨snd, ?_, ?_⟩
        · simp only [samplePass]; exact List.mem_cons_self _ _
        · simp only [samplePass]
          rw [samplePass_not_mem gs _ _ g ha, Function.update_same]
      · have hne : g ≠ a := fun h => ha (h ▸ hg)
        obtain ⟨s, h1, h2⟩ := ih (Function.update slots a (σ.grainSampleAndTick (slots a) snd).2.1)
          (σ.grainSampleAndTick (slots a) snd).2.2 hgs g hg
        rw [Function.update_noteq hne] at h1 h2
        refine ⟨s, ?_, ?_⟩
        · simp only [samplePass]; exact List.mem_cons_of_mem _ h1
        · simp only [samplePass]; exact h2

/-- The summation pass in closed form, for a `SampleAndTick` that leaves the sound
buffer as it is and a list without repetition. -/
theorem samplePass_readonly (gs : List Nat) (slots : Nat → σ.Grain) (snd : σ.SndBuf)
    (hn : gs.Nodup) (hro : ∀ (g : σ.Grain) (s : σ.SndBuf), (σ.grainSampleAndTick g s).2.2 = s) :
    (samplePass σ gs slots snd).1 = gs.map (fun g => (σ.grainSampleAndTick (slots g) snd).1)
    ∧ (samplePass σ gs slots snd).2.2 = snd
    ∧ ∀ g ∈ gs, (samplePass σ gs slots snd).2.1 g = (σ.grainSampleAndTick (slots g) snd).2.1 := by
  induction gs generalizing slots with
  | nil => exact ⟨rfl, rfl, fun g hg => by cases hg⟩
  | cons a gs ih =>
      obtain ⟨ha, hgs⟩ := List.nodup_cons.mp hn
      obtain ⟨h1, h2, h3⟩ :=
        ih (Function.update slots a (σ.grainSampleAndTick (slots a) snd).2.1) hgs
      have hmap : gs.map (fun g => (σ.grainSampleAndTick
            (Function.update slots a (σ.grainSampleAndTick (slots a) snd).2.1 g) snd).1)
          = gs.map (fun g => (σ.grainSampleAndTick (slots g) snd).1) := by
        apply List.map_congr_left
        intro g hg
        have hne : g ≠ a := fun h => ha (h ▸ hg)
        rw [Function.update_noteq hne]
      refine ⟨?_, ?_, ?_⟩
      · simp only [samplePass, List.map_cons, hro]
        rw [h1, hmap]
      · simp only [samplePass, hro]
        exact h2
      · intro g hg
        simp only [samplePass, hro]
        rcases List.mem_cons.mp hg with rfl | hg
        · rw [samplePass_not_mem gs _ _ g ha, Function.update_same]
        · have hne : g ≠ a := fun h => ha (h ▸ hg)
          rw [h3 g hg, Function.update_noteq hne]

/-- The value, the grains and the sound buffer of a tick with `bypassGrains` clear,
in terms of `samplePass`. -/
theorem tick_samplePass (w : World σ) (x : σ.SAMPLE) (hb : w.obj.bypassGrains = false) :
    (Tick w x).1
        = (samplePass σ (passPool w x).ActiveGrains (passPool w x).slots w.obj.sndbuf).1.foldl
            σ.add σ.zero
    ∧ (Tick w x).2.obj.grainMgr.slots
        = (samplePass σ (passPool w x).ActiveGrains (passPool w x).slots w.obj.sndbuf).2.1
    ∧ (Tick w x).2.obj.sndbuf
        = (samplePass σ (passPool w x).ActiveGrains (passPool w x).slots w.obj.sndbuf).2.2
    ∧ (Tick w x).2.obj.grainMgr.ActiveGrains
        = (passPool w x).ActiveGrains.filter (fun g => !σ.grainDone
            ((samplePass σ (passPool w x).ActiveGrains (passPool w x).slots
              w.obj.sndbuf).2.1 g)) := by
  obtain ⟨h1, h2, h3⟩ :=
    sumLoop_samplePass (spawnBlock w x).obj.grainMgr.ActiveGrains (spawnBlock w x) σ.zero
  rw [spawnBlock_sndbuf] at h1 h2 h3
  have ha := tick_active w x hb
  unfold afterSum at ha
  rw [h2] at ha
  refine ⟨?_, ?_, ?_, ha⟩
  · simpa [Tick, hb, mixBlock, passPool] using h1
  · simpa [Tick, hb, mixBlock, passPool, callPrune, dbGrainMgr.Prune] using h2
  · simpa [Tick, hb, mixBlock, passPool, callPrune] using h3

/-- C1. With `bypassGrains` set, `Tick(x)` returns the value of `sndbuf.Sample()`;
the only collaborator call it makes is that one, and nothing but the sound buffer
changes: the phasor, the trigger, the random generator and the grain pool are left
as they were.  The result is the same for any two bypassed objects with the same
sound buffer, whatever their grain, window and trigger settings. -/
theorem tick_bypass (w : World σ) (x : σ.SAMPLE) (hb : w.obj.bypassGrains = true) :
    (Tick w x).1 = (σ.sndbufSample w.obj.sndbuf).1
    ∧ (Tick w x).2 = { w with obj := { w.obj with sndbuf := (σ.sndbufSample w.obj.sndbuf).2 },
                              calls := w.calls ++ [Call.sndbufSample] }
    ∧ tickCalls w x = [Call.sndbufSample]
    ∧ (tickCalls w x).countP Call.isGrainLogic = 0
    ∧ ∀ (v : World σ) (y : σ.SAMPLE), v.obj.bypassGrains = true →
        v.obj.sndbuf = w.obj.sndbuf → (Tick v y).1 = (Tick w x).1 := by
  refine ⟨?_, ?_, ?_, ?_, ?_⟩
  · simp [Tick, hb, callSndbufSample]
  · simp [Tick, hb, callSndbufSample]
  · simp [tickCalls, Tick, hb, callSndbufSample]
  · simp [tickCalls, Tick, hb, callSndbufSample, Call.isGrainLogic]
  · intro v y hv hs
    simp [Tick, hb, hv, callSndbufSample, hs]

/-- Witness of C1: a bypassed object over the executable instance. -/
theorem tick_bypass_witness :
    demoBypassWorld.obj.bypassGrains = true
    ∧ (Tick demoBypassWorld (7 : Int)).1 = (demo.sndbufSample demoBypassWorld.obj.sndbuf).1
    ∧ (Tick demoBypassWorld (7 : Int)).2
        = { demoBypassWorld with
            obj := { demoBypassWorld.obj with
                     sndbuf := (demo.sndbufSample demoBypassWorld.obj.sndbuf).2 },
            calls := demoBypassWorld.calls ++ [Call.sndbufSample] }
    ∧ tickCalls demoBypassWorld (7 : Int) = [Call.sndbufSample]
    ∧ (tickCalls demoBypassWorld (7 : Int)).countP Call.isGrainLogic = 0
    ∧ ∀ (v : World demo) (y : demo.SAMPLE), v.obj.bypassGrains = true →
        v.obj.sndbuf = demoBypassWorld.obj.sndbuf → (Tick v y).1 = (Tick demoBypassWorld (7 : Int)).1 :=
  ⟨rfl, tick_bypass demoBypassWorld (7 : Int) rfl⟩

/-- C5. `GrainWindow(name)` returns 0 and selects the matching window exactly when
`name` is one of "blackman", "hanning", "hamming", "bartlett", "plancktaper"; for
any other name it returns 1 and leaves the object, the window selection included,
as it was.  In either case no member but `windowFilter` changes. -/
theorem grainWindow_spec (o : dbGrainBuf σ) (name : String) :
    (name = "blackman" → GrainWindow o name = (0, { o with windowFilter := .kBlackman }))
    ∧ (name = "hanning" → GrainWindow o name = (0, { o with windowFilter := .kHanning }))
    ∧ (name = "hamming" → GrainWindow o name = (0, { o with windowFilter := .kHamming }))
    ∧ (name = "bartlett" → GrainWindow o name = (0, { o with windowFilter := .kBartlett }))
    ∧ (name = "plancktaper" → GrainWindow o name = (0, { o with windowFilter := .kPlanckTaper }))
    ∧ (name ∉ ["blackman", "hanning", "hamming", "bartlett", "plancktaper"] →
        GrainWindow o name = (1, o))
    ∧ ((GrainWindow o name).1 = 0 ↔
        name ∈ ["blackman", "hanning", "hamming", "bartlett", "plancktaper"])
    ∧ (GrainWindow o name).2 = { o with windowFilter := (GrainWindow o name).2.windowFilter } := by
  refine ⟨?_, ?_, ?_, ?_, ?_, ?_, ?_, ?_⟩
  · intro h; subst h; simp [GrainWindow]
  · intro h; subst h; simp [GrainWindow]
  · intro h; subst h; simp [GrainWindow]
  · intro h; subst h; simp [GrainWindow]
  · intro h; subst h; simp [GrainWindow]
  · intro h
    simp only [List.mem_cons, List.mem_singleton, List.not_mem_nil, or_false, not_or] at h
    obtain ⟨h1, h2, h3, h4, h5⟩ := h
    simp [GrainWindow, h1, h2, h3, h4, h5]
  · unfold GrainWindow
    simp only [List.mem_cons, List.mem_singleton, List.not_mem_nil, or_false]
    split_ifs with h1 h2 h3 h4 h5 <;> simp_all
  · unfold GrainWindow
    split_ifs <;> rfl

/-- C9, as amended. `SetBypass(b)` returns `b` itself and stores whether `b` is
non-zero; `GetBypass()` then returns 1 for every non-zero `b` and 0 for 0, so the
pair round-trips exactly for `b = 0` and `b = 1`.  No other member changes. -/
theorem setBypass_getBypass (o : dbGrainBuf σ) (b : Int) :
    (SetBypass o b).1 = b
    ∧ (SetBypass o b).2 = { o with bypassGrains := decide (b ≠ 0) }
    ∧ GetBypass (SetBypass o b).2 = (if b = 0 then 0 else 1)
    ∧ (GetBypass (SetBypass o b).2 = b ↔ b = 0 ∨ b = 1) := by
  have h : GetBypass (SetBypass o b).2 = (if b = 0 then 0 else 1) := by
    by_cases h : b = 0 <;> simp [SetBypass, GetBypass, h]
  refine ⟨rfl, rfl, h, ?_⟩
  rw [h]
  split_ifs with h0
  · subst h0; simp
  · constructor
    · intro h1; exact Or.inr h1.symm
    · rintro (h1 | h1)
      · exact absurd h1 h0
      · exact h1.symm

/-- C9 fails for `b = 2`: `SetBypass(2)` returns 2, the member then holds `true`,
and `GetBypass()` returns 1. -/
theorem setBypass_getBypass_counterexample :
    (SetBypass demoObj 2).1 = 2
    ∧ (SetBypass demoObj 2).2.bypassGrains = true
    ∧ GetBypass (SetBypass demoObj 2).2 = 1
    ∧ GetBypass (SetBypass demoObj 2).2 ≠ (SetBypass demoObj 2).1 := by
  decide

/-- C8. For a positive frequency `f`, `SetTriggerFreq(f)` returns `f` and passes to
the trigger's `SetPeriod` the quotient `sampleRate / f`, computed in `float` and
converted to `long` (the fraction is discarded); nothing else changes.  The
divisor is not zero, so for a finite `sampleRate` and a finite `f` the quotient is
the rounded quotient of the two values, and whenever the quotient is finite and
its integer part fits `long` the period is that integer part.  At
`sampleRate = 44100` the frequency 5 Hz gives the period 8820. -/
theorem setTriggerFreq_spec (o : dbGrainBuf σ) (f : CFloat) (hf : f.isPos = true) :
    (SetTriggerFreq o f).1 = f
    ∧ (SetTriggerFreq o f).2
        = { o with trigger := σ.triggerSetPeriod o.trigger (o.sampleRate.div f).toLong }
    ∧ (∀ s n k t m e, o.sampleRate = .fin s n k → f = .fin t m e →
        t = false ∧ m ≠ 0 ∧ o.sampleRate.div f = round32 s n m (k - e))
    ∧ (∀ q, (o.sampleRate.div f).toRat = some q → InLong (truncRat q) →
        (SetTriggerFreq o f).2.trigger = σ.triggerSetPeriod o.trigger (truncRat q))
    ∧ (o.sampleRate = CFloat.lit 44100 1 → f = CFloat.lit 5 1 →
        (SetTriggerFreq o f).2.trigger = σ.triggerSetPeriod o.trigger 8820) := by
  refine ⟨rfl, rfl, ?_, ?_, ?_⟩
  · intro s n k t m e hs he
    subst he
    have ht : t = false := by cases t <;> simp_all [CFloat.isPos]
    have hm : m ≠ 0 := by
      intro h0; subst h0; simp [CFloat.isPos] at hf
    subst ht
    refine ⟨rfl, hm, ?_⟩
    rw [hs]
    simp [CFloat.div, hm]
  · intro q hq hr
    simp only [SetTriggerFreq, toLong_eq_truncRat _ q hq hr]
  · intro hs he
    have h : ((CFloat.lit 44100 1).div (CFloat.lit 5 1)).toLong = 8820 := by decide
    simp only [SetTriggerFreq, hs, he, h]

/-- Witness of C8: the object `dbGrainBuf(44100)` and the frequency 5 Hz. -/
theorem setTriggerFreq_spec_witness :
    (CFloat.lit 5 1).isPos = true
    ∧ (SetTriggerFreq demoObj (CFloat.lit 5 1)).1 = CFloat.lit 5 1
    ∧ (SetTriggerFreq demoObj (CFloat.lit 5 1)).2
        = { demoObj with
            trigger := demo.triggerSetPeriod demoObj.trigger
              (demoObj.sampleRate.div (CFloat.lit 5 1)).toLong }
    ∧ (∀ s n k t m e, demoObj.sampleRate = .fin s n k → CFloat.lit 5 1 = .fin t m e →
        t = false ∧ m ≠ 0 ∧ demoObj.sampleRate.div (CFloat.lit 5 1) = round32 s n m (k - e))
    ∧ (∀ q, (demoObj.sampleRate.div (CFloat.lit 5 1)).toRat = some q → InLong (truncRat q) →
        (SetTriggerFreq demoObj (CFloat.lit 5 1)).2.trigger
          = demo.triggerSetPeriod demoObj.trigger (truncRat q))
    ∧ (demoObj.sampleRate = CFloat.lit 44100 1 → CFloat.lit 5 1 = CFloat.lit 5 1 →
        (SetTriggerFreq demoObj (CFloat.lit 5 1)).2.trigger
          = demo.triggerSetPeriod demoObj.trigger 8820) :=
  ⟨by decide, setTriggerFreq_spec demoObj (CFloat.lit 5 1) (by decide)⟩

/-- C7. When `grainPeriodVariance` is 0, `getGrainStop(start)` takes no random draw
and returns `start + grainSamps`, where `grainSamps` is the `float` product
`grainPeriod * sampleRate` converted to `long` (the fraction discarded), whatever
`start` is: the `long` difference `stop - start` is `grainSamps`, and it is the
plain difference as well unless the sum overflows.  Every `Init` call made by
`Tick` gets such a pair, and `Tick` makes no jitter draw.  Whenever the product is
finite and its integer part fits `long`, `grainSamps` is that integer part.  With
`sampleRate = 44100` and `grainPeriod = 0.2f`, the values the constructor gives
(together with the variance 0), `grainSamps` is 8820. -/
theorem getGrainStop_no_variance (w : World σ) (start : Int)
    (hv : w.obj.grainPeriodVariance.ne0 = false) :
    getGrainStop w start = (ladd start (grainSamps w.obj), w)
    ∧ grainSamps w.obj = (w.obj.grainPeriod.mul w.obj.sampleRate).toLong
    ∧ (∀ q, (w.obj.grainPeriod.mul w.obj.sampleRate).toRat = some q → InLong (truncRat q) →
        grainSamps w.obj = truncRat q)
    ∧ wrapLong ((getGrainStop w start).1 - start) = grainSamps w.obj
    ∧ (InLong (start + grainSamps w.obj) → (getGrainStop w start).1 - start = grainSamps w.obj)
    ∧ (∀ x g a b r f, Call.grainInit g a b r f ∈ tickCalls w x →
        b = ladd a (grainSamps w.obj) ∧ wrapLong (b - a) = grainSamps w.obj)
    ∧ (∀ x range, Call.rand32HalfRange range ∉ tickCalls w x)
    ∧ (w.obj.sampleRate = CFloat.lit 44100 1 → w.obj.grainPeriod = CFloat.lit 1 5 →
        grainSamps w.obj = 8820)
    ∧ (∀ sr sb t p g, (dbGrainBuf.new sr sb t p g : dbGrainBuf σ).grainPeriod = CFloat.lit 1 5
        ∧ (dbGrainBuf.new sr sb t p g : dbGrainBuf σ).grainPeriodVariance.ne0 = false) := by
  have hgs : InLong (grainSamps w.obj) := toLong_inLong _
  have hstop := getGrainStop_of_ne0_false w start hv
  refine ⟨hstop, rfl, fun q hq hr => toLong_eq_truncRat _ q hq hr, ?_, ?_, ?_, ?_, ?_, ?_⟩
  · rw [hstop]; exact wrapLong_ladd_sub _ _ hgs
  · intro h
    rw [hstop]
    show ladd start (grainSamps w.obj) - start = grainSamps w.obj
    unfold ladd
    rw [wrapLong_of_inLong h]
    omega
  · intro x g a b r f hmem
    cases hb : w.obj.bypassGrains with
    | true => simp [tickCalls_bypass w x hb] at hmem
    | false =>
        rw [tickCalls_eq w x hb] at hmem
        cases hf : (afterTrigger w x).1 with
        | false => simp [spawnCalls_not_fired w x hf] at hmem
        | true =>
            cases ha : w.obj.grainMgr.Allocate with
            | none => simp [spawnCalls_saturated w x hf ha] at hmem
            | some p =>
                obtain ⟨g1, mgr⟩ := p
                simp [spawnCalls_spawn w x g1 mgr hf ha, hv] at hmem
                obtain ⟨-, ha1, hb1, -, -⟩ := hmem
                have hb2 : b = ladd a (grainSamps w.obj) := by
                  rw [hb1, ha1]; exact spawnStop_of_ne0_false w x mgr hv
                refine ⟨hb2, ?_⟩
                rw [hb2]; exact wrapLong_ladd_sub _ _ hgs
  · intro x range hmem
    cases hb : w.obj.bypassGrains with
    | true => simp [tickCalls_bypass w x hb] at hmem
    | false =>
        rw [tickCalls_eq w x hb] at hmem
        cases hf : (afterTrigger w x).1 with
        | false => simp [spawnCalls_not_fired w x hf] at hmem
        | true =>
            cases ha : w.obj.grainMgr.Allocate with
            | none => simp [spawnCalls_saturated w x hf ha] at hmem
            | some p =>
                obtain ⟨g1, mgr⟩ := p
                simp [spawnCalls_spawn w x g1 mgr hf ha, hv] at hmem
  · intro hs hp
    have h : ((CFloat.lit 1 5).mul (CFloat.lit 44100 1)).toLong = 8820 := by decide
    simp only [grainSamps, hs, hp, h]
  · intro sr sb t p g
    exact ⟨rfl, rfl⟩

/-- Witness of C7: the freshly constructed object `dbGrainBuf(44100)` and the start
sample 1000. -/
theorem getGrainStop_no_variance_witness :
    demoWorld.obj.grainPeriodVariance.ne0 = false
    ∧ getGrainStop demoWorld 1000 = (ladd 1000 (grainSamps demoWorld.obj), demoWorld)
    ∧ grainSamps demoWorld.obj
        = (demoWorld.obj.grainPeriod.mul demoWorld.obj.sampleRate).toLong
    ∧ (∀ q, (demoWorld.obj.grainPeriod.mul demoWorld.obj.sampleRate).toRat = some q →
        InLong (truncRat q) → grainSamps demoWorld.obj = truncRat q)
    ∧ wrapLong ((getGrainStop demoWorld 1000).1 - 1000) = grainSamps demoWorld.obj
    ∧ (InLong (1000 + grainSamps demoWorld.obj) →
        (getGrainStop demoWorld 1000).1 - 1000 = grainSamps demoWorld.obj)
    ∧ (∀ x g a b r f, Call.grainInit g a b r f ∈ tickCalls demoWorld x →
        b = ladd a (grainSamps demoWorld.obj) ∧ wrapLong (b - a) = grainSamps demoWorld.obj)
    ∧ (∀ x range, Call.rand32HalfRange range ∉ tickCalls demoWorld x)
    ∧ (demoWorld.obj.sampleRate = CFloat.lit 44100 1 →
        demoWorld.obj.grainPeriod = CFloat.lit 1 5 → grainSamps demoWorld.obj = 8820)
    ∧ (∀ sr sb t p g, (dbGrainBuf.new sr sb t p g : dbGrainBuf demo).grainPeriod = CFloat.lit 1 5
        ∧ (dbGrainBuf.new sr sb t p g : dbGrainBuf demo).grainPeriodVariance.ne0 = false) :=
  ⟨rfl, getGrainStop_no_variance demoWorld 1000 rfl⟩

/-- C2. With `bypassGrains` clear, `Tick(x)` hands every grain that is active once
lines 95 to 130 have run (every grain active before the call and, in front of them,
the grain spawned in this call) to `Grain::SampleAndTick`, once for each entry of
the collection and in its order, and returns the sum of the values returned, begun
at 0.  `Prune()` is called once, after all of them, and removes exactly the grains
that `grainDone` reports after their `SampleAndTick` of this tick, so a grain that
passes its stop sample in this tick has been sampled and summed before it is
removed.  When the collection has no repetition each grain is advanced by exactly
one `SampleAndTick`; when moreover `SampleAndTick` leaves the sound buffer as it is,
the sum and the pruning are given in closed form. -/
theorem tick_sums_then_prunes (w : World σ) (x : σ.SAMPLE)
    (hb : w.obj.bypassGrains = false) :
    (((afterTrigger w x).1 = false ∨ w.obj.grainMgr.Allocate = none) →
        passPool w x = w.obj.grainMgr)
    ∧ (∀ g mgr, (afterTrigger w x).1 = true → w.obj.grainMgr.Allocate = some (g, mgr) →
        passPool w x
          = { GrainPoolSize := w.obj.grainMgr.GrainPoolSize,
              slots := Function.update w.obj.grainMgr.slots g
                (σ.grainInit (w.obj.grainMgr.slots g) (spawnStart w x mgr)
                  (spawnStop w x mgr) w.obj.grainRate w.obj.windowFilter),
              ActiveGrains := g :: w.obj.grainMgr.ActiveGrains })
    ∧ (∀ g, g ∈ w.obj.grainMgr.ActiveGrains → g ∈ (passPool w x).ActiveGrains)
    ∧ (w.obj.grainMgr.ActiveGrains.Nodup → (passPool w x).ActiveGrains.Nodup)
    ∧ (Tick w x).1 = (samplePass σ (passPool w x).ActiveGrains (passPool w x).slots w.obj.sndbuf).1.foldl σ.add σ.zero
    ∧ (Tick w x).2.obj.grainMgr.slots = (samplePass σ (passPool w x).ActiveGrains (passPool w x).slots w.obj.sndbuf).2.1
    ∧ (Tick w x).2.obj.sndbuf = (samplePass σ (passPool w x).ActiveGrains (passPool w x).slots w.obj.sndbuf).2.2
    ∧ (Tick w x).2.obj.grainMgr.ActiveGrains
        = (passPool w x).ActiveGrains.filter
            (fun g => !σ.grainDone ((Tick w x).2.obj.grainMgr.slots g))
    ∧ tickCalls w x
        = spawnCalls w x
          ++ (passPool w x).ActiveGrains.map Call.grainSampleAndTick
          ++ [Call.prune]
    ∧ (∀ g, (tickCalls w x).countP (Call.isSampleOf g)
        = (passPool w x).ActiveGrains.count g)
    ∧ (tickCalls w x).countP Call.isPrune = 1
    ∧ ((passPool w x).ActiveGrains.Nodup →
        (∀ g ∈ (passPool w x).ActiveGrains, ∃ s : σ.SndBuf,
          (σ.grainSampleAndTick ((passPool w x).slots g) s).1 ∈ (samplePass σ (passPool w x).ActiveGrains (passPool w x).slots w.obj.sndbuf).1
          ∧ (Tick w x).2.obj.grainMgr.slots g
              = (σ.grainSampleAndTick ((passPool w x).slots g) s).2.1
          ∧ (tickCalls w x).countP (Call.isSampleOf g) = 1
          ∧ (σ.grainDone (σ.grainSampleAndTick ((passPool w x).slots g) s).2.1 = true →
              g ∉ (Tick w x).2.obj.grainMgr.ActiveGrains)
          ∧ (σ.grainDone (σ.grainSampleAndTick ((passPool w x).slots g) s).2.1 = false →
              g ∈ (Tick w x).2.obj.grainMgr.ActiveGrains))
        ∧ (∀ g, g ∉ (passPool w x).ActiveGrains →
            (Tick w x).2.obj.grainMgr.slots g = (passPool w x).slots g))
    ∧ ((passPool w x).ActiveGrains.Nodup →
        (∀ (g : σ.Grain) (s : σ.SndBuf), (σ.grainSampleAndTick g s).2.2 = s) →
        (Tick w x).1
          = ((passPool w x).ActiveGrains.map (fun g =>
              (σ.grainSampleAndTick ((passPool w x).slots g) w.obj.sndbuf).1)).foldl
              σ.add σ.zero
        ∧ (Tick w x).2.obj.sndbuf = w.obj.sndbuf
        ∧ (∀ g ∈ (passPool w x).ActiveGrains,
            (Tick w x).2.obj.grainMgr.slots g
              = (σ.grainSampleAndTick ((passPool w x).slots g) w.obj.sndbuf).2.1)
        ∧ (Tick w x).2.obj.grainMgr.ActiveGrains
            = (passPool w x).ActiveGrains.filter (fun g => !σ.grainDone
                (σ.grainSampleAndTick ((passPool w x).slots g) w.obj.sndbuf).2.1)) := by
  obtain ⟨hval, hslots, hsnd, hact⟩ := tick_samplePass w x hb
  have hcalls : tickCalls w x = spawnCalls w x
      ++ (passPool w x).ActiveGrains.map Call.grainSampleAndTick ++ [Call.prune] :=
    tickCalls_eq w x hb
  have hcount : ∀ g, (tickCalls w x).countP (Call.isSampleOf g)
      = (passPool w x).ActiveGrains.count g := by
    intro g
    rw [hcalls, List.countP_append, List.countP_append, (spawnCalls_no_mix w x).1 g,
      countP_isSampleOf_map]
    simp [Call.isSampleOf]
  have hfilter : (Tick w x).2.obj.grainMgr.ActiveGrains
      = (passPool w x).ActiveGrains.filter
          (fun g => !σ.grainDone ((Tick w x).2.obj.grainMgr.slots g)) := by
    rw [hslots]; exact hact
  refine ⟨?_, ?_, ?_, ?_, hval, hslots, hsnd, hfilter, hcalls, hcount, ?_, ?_, ?_⟩
  · intro hno
    rcases spawnBlock_active w x with ⟨hf, g, mgr, ha, -, -⟩ | ⟨-, hm⟩
    · rcases hno with h | h
      · rw [hf] at h; cases h
      · rw [ha] at h; cases h
    · exact hm
  · intro g mgr hf ha
    obtain ⟨-, -, hm⟩ := allocate_some ha
    show (spawnBlock w x).obj.grainMgr = _
    rw [spawnBlock_grainMgr_spawn w x g mgr hf ha, hm]
    simp [dbGrainMgr.Init]
  · intro g hg
    rcases spawnBlock_active w x with ⟨-, g1, mgr, -, -, hactive⟩ | ⟨-, hm⟩
    · show g ∈ (spawnBlock w x).obj.grainMgr.ActiveGrains
      rw [hactive]; exact List.mem_cons_of_mem _ hg
    · show g ∈ (spawnBlock w x).obj.grainMgr.ActiveGrains
      rw [hm]; exact hg
  · intro hn
    rcases spawnBlock_active w x with ⟨-, g1, mgr, -, hg1, hactive⟩ | ⟨-, hm⟩
    · show ((spawnBlock w x).obj.grainMgr.ActiveGrains).Nodup
      rw [hactive]; exact List.nodup_cons.mpr ⟨hg1, hn⟩
    · show ((spawnBlock w x).obj.grainMgr.ActiveGrains).Nodup
      rw [hm]; exact hn
  · rw [hcalls, List.countP_append, List.countP_append, (spawnCalls_no_mix w x).2,
      countP_isPrune_map]
    simp [Call.isPrune]
  · intro hn
    refine ⟨?_, ?_⟩
    · intro g hg
      obtain ⟨s, h1, h2⟩ :=
        samplePass_each (passPool w x).ActiveGrains (passPool w x).slots w.obj.sndbuf hn g hg
      have hslot : (Tick w x).2.obj.grainMgr.slots g
          = (σ.grainSampleAndTick ((passPool w x).slots g) s).2.1 := by
        rw [hslots]; exact h2
      refine ⟨s, h1, hslot, ?_, ?_, ?_⟩
      · rw [hcount g]; exact List.count_eq_one_of_mem hn hg
      · intro hdone
        rw [hfilter, List.mem_filter, hslot, hdone]
        simp
      · intro hdone
        rw [hfilter, List.mem_filter, hslot, hdone]
        exact ⟨hg, rfl⟩
    · intro g hg
      rw [hslots]
      exact samplePass_not_mem _ _ _ g hg
  · intro hn hro
    obtain ⟨h1, h2, h3⟩ :=
      samplePass_readonly (passPool w x).ActiveGrains (passPool w x).slots w.obj.sndbuf hn hro
    refine ⟨?_, ?_, ?_, ?_⟩
    · rw [hval, h1]
    · rw [hsnd, h2]
    · intro g hg
      rw [hslots]; exact h3 g hg
    · rw [hact]
      apply List.filter_congr
      intro g hg
      rw [h3 g hg]

set_option maxRecDepth 8192 in
/-- Witness of C2: a tick of an object with two active grains, in the slots 1 and 0,
in which a third grain is spawned in slot 2.  The three grains are sampled in the
order 2, 1, 0 and return 0, 300 and 300; the tick returns 600; the grain in slot 1
passes its stop sample in this tick, is summed, and is removed by `Prune()`. -/
theorem tick_sums_then_prunes_witness :
    demoBusyWorld.obj.bypassGrains = false
    ∧ ((((afterTrigger demoBusyWorld (0 : Int)).1 = false ∨ demoBusyWorld.obj.grainMgr.Allocate = none) →
        passPool demoBusyWorld (0 : Int) = demoBusyWorld.obj.grainMgr)
    ∧ (∀ g mgr, (afterTrigger demoBusyWorld (0 : Int)).1 = true → demoBusyWorld.obj.grainMgr.Allocate = some (g, mgr) →
        passPool demoBusyWorld (0 : Int)
          = { GrainPoolSize := demoBusyWorld.obj.grainMgr.GrainPoolSize,
              slots := Function.update demoBusyWorld.obj.grainMgr.slots g
                (demo.grainInit (demoBusyWorld.obj.grainMgr.slots g) (spawnStart demoBusyWorld (0 : Int) mgr)
                  (spawnStop demoBusyWorld (0 : Int) mgr) demoBusyWorld.obj.grainRate demoBusyWorld.obj.windowFilter),
              ActiveGrains := g :: demoBusyWorld.obj.grainMgr.ActiveGrains })
    ∧ (∀ g, g ∈ demoBusyWorld.obj.grainMgr.ActiveGrains → g ∈ (passPool demoBusyWorld (0 : Int)).ActiveGrains)
    ∧ (demoBusyWorld.obj.grainMgr.ActiveGrains.Nodup → (passPool demoBusyWorld (0 : Int)).ActiveGrains.Nodup)
    ∧ (Tick demoBusyWorld (0 : Int)).1 = (samplePass demo (passPool demoBusyWorld (0 : Int)).ActiveGrains (passPool demoBusyWorld (0 : Int)).slots demoBusyWorld.obj.sndbuf).1.foldl demo.add demo.zero
    ∧ (Tick demoBusyWorld (0 : Int)).2.obj.grainMgr.slots = (samplePass demo (passPool demoBusyWorld (0 : Int)).ActiveGrains (passPool demoBusyWorld (0 : Int)).slots demoBusyWorld.obj.sndbuf).2.1
    ∧ (Tick demoBusyWorld (0 : Int)).2.obj.sndbuf = (samplePass demo (passPool demoBusyWorld (0 : Int)).ActiveGrains (passPool demoBusyWorld (0 : Int)).slots demoBusyWorld.obj.sndbuf).2.2
    ∧ (Tick demoBusyWorld (0 : Int)).2.obj.grainMgr.ActiveGrains
        = (passPool demoBusyWorld (0 : Int)).ActiveGrains.filter
            (fun g => !demo.grainDone ((Tick demoBusyWorld (0 : Int)).2.obj.grainMgr.slots g))
    ∧ tickCalls demoBusyWorld (0 : Int)
        = spawnCalls demoBusyWorld (0 : Int)
          ++ (passPool demoBusyWorld (0 : Int)).ActiveGrains.map Call.grainSampleAndTick
          ++ [Call.prune]
    ∧ (∀ g, (tickCalls demoBusyWorld (0 : Int)).countP (Call.isSampleOf g)
        = (passPool demoBusyWorld (0 : Int)).ActiveGrains.count g)
    ∧ (tickCalls demoBusyWorld (0 : Int)).countP Call.isPrune = 1
    ∧ ((passPool demoBusyWorld (0 : Int)).ActiveGrains.Nodup →
        (∀ g ∈ (passPool demoBusyWorld (0 : Int)).ActiveGrains, ∃ s : demo.SndBuf,
          (demo.grainSampleAndTick ((passPool demoBusyWorld (0 : Int)).slots g) s).1 ∈ (samplePass demo (passPool demoBusyWorld (0 : Int)).ActiveGrains (passPool demoBusyWorld (0 : Int)).slots demoBusyWorld.obj.sndbuf).1
          ∧ (Tick demoBusyWorld (0 : Int)).2.obj.grainMgr.slots g
              = (demo.grainSampleAndTick ((passPool demoBusyWorld (0 : Int)).slots g) s).2.1
          ∧ (tickCalls demoBusyWorld (0 : Int)).countP (Call.isSampleOf g) = 1
          ∧ (demo.grainDone (demo.grainSampleAndTick ((passPool demoBusyWorld (0 : Int)).slots g) s).2.1 = true →
              g ∉ (Tick demoBusyWorld (0 : Int)).2.obj.grainMgr.ActiveGrains)
          ∧ (demo.grainDone (demo.grainSampleAndTick ((passPool demoBusyWorld (0 : Int)).slots g) s).2.1 = false →
              g ∈ (Tick demoBusyWorld (0 : Int)).2.obj.grainMgr.ActiveGrains))
        ∧ (∀ g, g ∉ (passPool demoBusyWorld (0 : Int)).ActiveGrains →
            (Tick demoBusyWorld (0 : Int)).2.obj.grainMgr.slots g = (passPool demoBusyWorld (0 : Int)).slots g))
    ∧ ((passPool demoBusyWorld (0 : Int)).ActiveGrains.Nodup →
        (∀ (g : demo.Grain) (s : demo.SndBuf), (demo.grainSampleAndTick g s).2.2 = s) →
        (Tick demoBusyWorld (0 : Int)).1
          = ((passPool demoBusyWorld (0 : Int)).ActiveGrains.map (fun g =>
              (demo.grainSampleAndTick ((passPool demoBusyWorld (0 : Int)).slots g) demoBusyWorld.obj.sndbuf).1)).foldl
              demo.add demo.zero
        ∧ (Tick demoBusyWorld (0 : Int)).2.obj.sndbuf = demoBusyWorld.obj.sndbuf
        ∧ (∀ g ∈ (passPool demoBusyWorld (0 : Int)).ActiveGrains,
            (Tick demoBusyWorld (0 : Int)).2.obj.grainMgr.slots g
              = (demo.grainSampleAndTick ((passPool demoBusyWorld (0 : Int)).slots g) demoBusyWorld.obj.sndbuf).2.1)
        ∧ (Tick demoBusyWorld (0 : Int)).2.obj.grainMgr.ActiveGrains
            = (passPool demoBusyWorld (0 : Int)).ActiveGrains.filter (fun g => !demo.grainDone
                (demo.grainSampleAndTick ((passPool demoBusyWorld (0 : Int)).slots g) demoBusyWorld.obj.sndbuf).2.1)))
    ∧ (passPool demoBusyWorld (0 : Int)).ActiveGrains = [2, 1, 0]
    ∧ (samplePass demo (passPool demoBusyWorld (0 : Int)).ActiveGrains
        (passPool demoBusyWorld (0 : Int)).slots demoBusyWorld.obj.sndbuf).1 = [0, 300, 300]
    ∧ (Tick demoBusyWorld (0 : Int)).1 = (600 : Int)
    ∧ demo.grainDone ((Tick demoBusyWorld (0 : Int)).2.obj.grainMgr.slots 1) = true
    ∧ (Tick demoBusyWorld (0 : Int)).2.obj.grainMgr.ActiveGrains = [2, 0]
    ∧ tickCalls demoBusyWorld (0 : Int)
        = [Call.phasorTick, Call.triggerSampleAndTick (0 : Int), Call.allocate, Call.phasorSample,
           Call.grainInit 2 1 8821 (CFloat.lit 1 1) FilterType.kBlackman,
           Call.grainSampleAndTick 2, Call.grainSampleAndTick 1, Call.grainSampleAndTick 0,
           Call.prune] :=
  ⟨rfl, tick_sums_then_prunes demoBusyWorld (0 : Int) rfl,
    by decide, by decide, by decide, by decide, by decide, by decide⟩

/-- C4. When `bypassGrains` is clear, the trigger fires and `Allocate()` returns no
slot, lines 95 to 130 do nothing beyond ticking the phasor, querying the trigger and
calling `Allocate()`: no `Init`, no `phasor.Sample()`, no jitter draw, and the grain
pool is the one found at entry.  The tick then sums the active grains, prunes and
returns the sum.  Result, pool and sound buffer are those of a tick, begun with the
same pool and sound buffer, in which the trigger does not fire.  The sum is that of
the values `Grain::SampleAndTick` returns for the grains active at entry, taken in
order, and the grains that remain are those not done after it. -/
theorem tick_saturated (w : World σ) (x : σ.SAMPLE) (hb : w.obj.bypassGrains = false)
    (hf : (afterTrigger w x).1 = true) (hsat : w.obj.grainMgr.Allocate = none) :
    spawnBlock w x = (afterTrigger w x).2.log Call.allocate
    ∧ (spawnBlock w x).obj.grainMgr = w.obj.grainMgr
    ∧ tickCalls w x
        = [Call.phasorTick, Call.triggerSampleAndTick x, Call.allocate]
          ++ w.obj.grainMgr.ActiveGrains.map Call.grainSampleAndTick ++ [Call.prune]
    ∧ (tickCalls w x).countP Call.isSpawn = 0
    ∧ (Tick w x).1
        = (sampleEach w.obj.grainMgr.ActiveGrains (spawnBlock w x)).foldl σ.add σ.zero
    ∧ (Tick w x).2.obj.grainMgr.ActiveGrains
        = w.obj.grainMgr.ActiveGrains.filter
            (fun g => !σ.grainDone ((afterSum w x).obj.grainMgr.slots g))
    ∧ (∀ (v : World σ) (y : σ.SAMPLE), v.obj.bypassGrains = false →
        (afterTrigger v y).1 = false → v.obj.grainMgr = w.obj.grainMgr →
        v.obj.sndbuf = w.obj.sndbuf →
        (Tick v y).1 = (Tick w x).1
        ∧ (Tick v y).2.obj.grainMgr = (Tick w x).2.obj.grainMgr
        ∧ (Tick v y).2.obj.sndbuf = (Tick w x).2.obj.sndbuf)
    ∧ (Tick w x).1
        = (samplePass σ w.obj.grainMgr.ActiveGrains w.obj.grainMgr.slots
            w.obj.sndbuf).1.foldl σ.add σ.zero
    ∧ (Tick w x).2.obj.grainMgr.slots
        = (samplePass σ w.obj.grainMgr.ActiveGrains w.obj.grainMgr.slots
            w.obj.sndbuf).2.1
    ∧ (Tick w x).2.obj.grainMgr.ActiveGrains
        = w.obj.grainMgr.ActiveGrains.filter
            (fun g => !σ.grainDone ((Tick w x).2.obj.grainMgr.slots g)) := by
  have hsp := spawnBlock_saturated w x hf hsat
  have hmgr : (spawnBlock w x).obj.grainMgr = w.obj.grainMgr := by
    rw [hsp]; simp [World.log, afterTrigger_grainMgr]
  have hsnd : (spawnBlock w x).obj.sndbuf = w.obj.sndbuf := by
    rw [hsp]; simp [World.log, afterTrigger_sndbuf]
  have hcalls : tickCalls w x
      = [Call.phasorTick, Call.triggerSampleAndTick x, Call.allocate]
        ++ w.obj.grainMgr.ActiveGrains.map Call.grainSampleAndTick ++ [Call.prune] := by
    rw [tickCalls_eq w x hb, spawnCalls_saturated w x hf hsat, hmgr]
  obtain ⟨hval, hslots, -, hact⟩ := tick_samplePass w x hb
  have hpool : passPool w x = w.obj.grainMgr := hmgr
  rw [hpool] at hval hslots hact
  refine ⟨hsp, hmgr, hcalls, ?_, ?_, ?_, ?_, hval, hslots, ?_⟩
  · rw [hcalls]
    have hmap : ∀ l : List Nat,
        (l.map (Call.grainSampleAndTick : Nat → Call σ.SAMPLE)).countP Call.isSpawn = 0 := by
      intro l
      induction l with
      | nil => simp
      | cons a l ih => simp [List.countP_cons, ih, Call.isSpawn]
    rw [List.countP_append, List.countP_append, hmap]
    simp [Call.isSpawn]
  · rw [tick_value w x hb, hmgr]
  · rw [tick_active w x hb, hmgr]
  · intro v y hvb hvf hvm hvs
    have hv : spawnBlock v y = (afterTrigger v y).2 := spawnBlock_not_fired v y hvf
    have h1 : (spawnBlock v y).obj.grainMgr = (spawnBlock w x).obj.grainMgr := by
      rw [hv, afterTrigger_grainMgr, hmgr, hvm]
    have h2 : (spawnBlock v y).obj.sndbuf = (spawnBlock w x).obj.sndbuf := by
      rw [hv, afterTrigger_sndbuf, hsnd, hvs]
    have h := mixBlock_congr (spawnBlock v y) (spawnBlock w x) h1 h2
    simpa [Tick, hb, hvb] using h
  · rw [hslots]; exact hact

set_option maxRecDepth 8192 in
/-- The pool of `demoFullWorld` has no free slot. -/
theorem demoFullWorld_saturated : demoFullWorld.obj.grainMgr.Allocate = none := by
  apply allocate_eq_none
  intro i hi
  have hs : demoFullWorld.obj.grainMgr.GrainPoolSize = 512 := rfl
  have ha : demoFullWorld.obj.grainMgr.ActiveGrains = List.range 512 := rfl
  rw [ha]
  rw [hs] at hi
  exact List.mem_range.mpr hi

/-- Witness of C4: a tick of an object whose 512 slots are all taken, with the
trigger firing. -/
theorem tick_saturated_witness :
    demoFullWorld.obj.bypassGrains = false
    ∧ (afterTrigger demoFullWorld (0 : Int)).1 = true
    ∧ demoFullWorld.obj.grainMgr.Allocate = none
    ∧ (spawnBlock demoFullWorld (0 : Int) = (afterTrigger demoFullWorld (0 : Int)).2.log Call.allocate
    ∧ (spawnBlock demoFullWorld (0 : Int)).obj.grainMgr = demoFullWorld.obj.grainMgr
    ∧ tickCalls demoFullWorld (0 : Int)
        = [Call.phasorTick, Call.triggerSampleAndTick (0 : Int), Call.allocate]
          ++ demoFullWorld.obj.grainMgr.ActiveGrains.map Call.grainSampleAndTick ++ [Call.prune]
    ∧ (tickCalls demoFullWorld (0 : Int)).countP Call.isSpawn = 0
    ∧ (Tick demoFullWorld (0 : Int)).1
        = (sampleEach demoFullWorld.obj.grainMgr.ActiveGrains (spawnBlock demoFullWorld (0 : Int))).foldl demo.add demo.zero
    ∧ (Tick demoFullWorld (0 : Int)).2.obj.grainMgr.ActiveGrains
        = demoFullWorld.obj.grainMgr.ActiveGrains.filter
            (fun g => !demo.grainDone ((afterSum demoFullWorld (0 : Int)).obj.grainMgr.slots g))
    ∧ (∀ (v : World demo) (y : demo.SAMPLE), v.obj.bypassGrains = false →
        (afterTrigger v y).1 = false → v.obj.grainMgr = demoFullWorld.obj.grainMgr →
        v.obj.sndbuf = demoFullWorld.obj.sndbuf →
        (Tick v y).1 = (Tick demoFullWorld (0 : Int)).1
        ∧ (Tick v y).2.obj.grainMgr = (Tick demoFullWorld (0 : Int)).2.obj.grainMgr
        ∧ (Tick v y).2.obj.sndbuf = (Tick demoFullWorld (0 : Int)).2.obj.sndbuf)
    ∧ (Tick demoFullWorld (0 : Int)).1
        = (samplePass demo demoFullWorld.obj.grainMgr.ActiveGrains demoFullWorld.obj.grainMgr.slots
            demoFullWorld.obj.sndbuf).1.foldl demo.add demo.zero
    ∧ (Tick demoFullWorld (0 : Int)).2.obj.grainMgr.slots
        = (samplePass demo demoFullWorld.obj.grainMgr.ActiveGrains demoFullWorld.obj.grainMgr.slots
            demoFullWorld.obj.sndbuf).2.1
    ∧ (Tick demoFullWorld (0 : Int)).2.obj.grainMgr.ActiveGrains
        = demoFullWorld.obj.grainMgr.ActiveGrains.filter
            (fun g => !demo.grainDone ((Tick demoFullWorld (0 : Int)).2.obj.grainMgr.slots g))) :=
  ⟨rfl, rfl, demoFullWorld_saturated,
    tick_saturated demoFullWorld (0 : Int) rfl rfl demoFullWorld_saturated⟩

/-- C10. When `bypassGrains` is clear, the trigger fires and `Allocate()` returns the
slot `g`, `Tick` makes exactly one `Init` call, on the grain in slot `g`, with
`start` the value of `phasor.Sample()` (called after `phasor.Tick()` and the trigger
query of this tick) converted to `long`, `stop = start + grainSamps` where
`grainSamps` is `grainPeriod * sampleRate` converted to `long`, plus (only when
`grainPeriodVariance` is not 0) one draw `rand32HalfRange(grainSamps *
grainPeriodVariance)`, the configured `grainRate` and the configured window.  The
grain in slot `g`, free until then, becomes active; no other slot changes. -/
theorem tick_spawn (w : World σ) (x : σ.SAMPLE) (g : Nat) (mgr : dbGrainMgr σ)
    (hb : w.obj.bypassGrains = false) (hf : (afterTrigger w x).1 = true)
    (ha : w.obj.grainMgr.Allocate = some (g, mgr)) :
    spawnStart w x mgr
        = (σ.phasorSample (σ.phasorTick w.obj.phasor w.rand).1
            (σ.triggerSampleAndTick w.obj.trigger (σ.phasorTick w.obj.phasor w.rand).2
              x).2.2).1.toLong
    ∧ spawnStop w x mgr
        = (if w.obj.grainPeriodVariance.ne0 then
            ladd (ladd (spawnStart w x mgr) (grainSamps w.obj))
              (σ.rand32HalfRange (jitterRange w.obj)
                (σ.phasorSample (σ.phasorTick w.obj.phasor w.rand).1
                  (σ.triggerSampleAndTick w.obj.trigger
                    (σ.phasorTick w.obj.phasor w.rand).2 x).2.2).2.2).1
          else ladd (spawnStart w x mgr) (grainSamps w.obj))
    ∧ grainSamps w.obj = (w.obj.grainPeriod.mul w.obj.sampleRate).toLong
    ∧ jitterRange w.obj
        = (CFloat.ofLong (grainSamps w.obj)).mul w.obj.grainPeriodVariance
    ∧ spawnCalls w x
        = [Call.phasorTick, Call.triggerSampleAndTick x, Call.allocate, Call.phasorSample]
          ++ (if w.obj.grainPeriodVariance.ne0 then
                [Call.rand32HalfRange (jitterRange w.obj)]
              else [])
          ++ [Call.grainInit g (spawnStart w x mgr) (spawnStop w x mgr)
                w.obj.grainRate w.obj.windowFilter]
    ∧ (tickCalls w x).countP Call.isGrainInit = 1
    ∧ (spawnBlock w x).obj.grainMgr
        = { GrainPoolSize := w.obj.grainMgr.GrainPoolSize,
            slots := Function.update w.obj.grainMgr.slots g
              (σ.grainInit (w.obj.grainMgr.slots g) (spawnStart w x mgr)
                (spawnStop w x mgr) w.obj.grainRate w.obj.windowFilter),
            ActiveGrains := g :: w.obj.grainMgr.ActiveGrains }
    ∧ (∀ h, h ≠ g → (spawnBlock w x).obj.grainMgr.slots h = w.obj.grainMgr.slots h)
    ∧ g ∉ w.obj.grainMgr.ActiveGrains ∧ g < w.obj.grainMgr.GrainPoolSize := by
  obtain ⟨hlt, hfree, hm⟩ := allocate_some ha
  have hstart : spawnStart w x mgr
      = (σ.phasorSample (σ.phasorTick w.obj.phasor w.rand).1
          (σ.triggerSampleAndTick w.obj.trigger (σ.phasorTick w.obj.phasor w.rand).2
            x).2.2).1.toLong := by
    simp [spawnStart, callPhasorSample, afterAllocate, afterTrigger, callTriggerSampleAndTick,
      callPhasorTick]
  have hrand : (callPhasorSample (afterAllocate w x mgr)).2.rand
      = (σ.phasorSample (σ.phasorTick w.obj.phasor w.rand).1
          (σ.triggerSampleAndTick w.obj.trigger (σ.phasorTick w.obj.phasor w.rand).2
            x).2.2).2.2 := by
    simp [callPhasorSample, afterAllocate, afterTrigger, callTriggerSampleAndTick,
      callPhasorTick]
  have hmgr := spawnBlock_grainMgr_spawn w x g mgr hf ha
  have hcalls := spawnCalls_spawn w x g mgr hf ha
  refine ⟨hstart, ?_, rfl, rfl, hcalls, ?_, ?_, ?_, hfree, hlt⟩
  · cases hn : w.obj.grainPeriodVariance.ne0 with
    | false => simp [spawnStop_of_ne0_false w x mgr hn]
    | true => simp [spawnStop_of_ne0_true w x mgr hn, hrand]
  · have hmap : ∀ l : List Nat,
        (l.map (Call.grainSampleAndTick : Nat → Call σ.SAMPLE)).countP Call.isGrainInit = 0 := by
      intro l
      induction l with
      | nil => simp
      | cons a l ih => simp [List.countP_cons, ih, Call.isGrainInit]
    rw [tickCalls_eq w x hb, hcalls, List.countP_append, List.countP_append, hmap]
    cases w.obj.grainPeriodVariance.ne0 <;> simp [Call.isGrainInit]
  · rw [hmgr, hm]
    simp [dbGrainMgr.Init]
  · intro h hne
    rw [hmgr, hm]
    simp [dbGrainMgr.Init, Function.update, hne]

set_option maxRecDepth 8192 in
/-- Witness of C10: the first tick of the freshly constructed object `dbGrainBuf(44100)`
over the executable instance; the trigger fires and slot 0 is handed out. -/
theorem tick_spawn_witness :
    demoWorld.obj.bypassGrains = false
    ∧ (afterTrigger demoWorld (0 : Int)).1 = true
    ∧ demoWorld.obj.grainMgr.Allocate
        = some (0, { demoWorld.obj.grainMgr with ActiveGrains := [0] })
    ∧ (spawnStart demoWorld (0 : Int) { demoWorld.obj.grainMgr with ActiveGrains := [0] }
        = (demo.phasorSample (demo.phasorTick demoWorld.obj.phasor demoWorld.rand).1
            (demo.triggerSampleAndTick demoWorld.obj.trigger (demo.phasorTick demoWorld.obj.phasor demoWorld.rand).2
              (0 : Int)).2.2).1.toLong
    ∧ spawnStop demoWorld (0 : Int) { demoWorld.obj.grainMgr with ActiveGrains := [0] }
        = (if demoWorld.obj.grainPeriodVariance.ne0 then
            ladd (ladd (spawnStart demoWorld (0 : Int) { demoWorld.obj.grainMgr with ActiveGrains := [0] }) (grainSamps demoWorld.obj))
              (demo.rand32HalfRange (jitterRange demoWorld.obj)
                (demo.phasorSample (demo.phasorTick demoWorld.obj.phasor demoWorld.rand).1
                  (demo.triggerSampleAndTick demoWorld.obj.trigger
                    (demo.phasorTick demoWorld.obj.phasor demoWorld.rand).2 (0 : Int)).2.2).2.2).1
          else ladd (spawnStart demoWorld (0 : Int) { demoWorld.obj.grainMgr with ActiveGrains := [0] }) (grainSamps demoWorld.obj))
    ∧ grainSamps demoWorld.obj = (demoWorld.obj.grainPeriod.mul demoWorld.obj.sampleRate).toLong
    ∧ jitterRange demoWorld.obj
        = (CFloat.ofLong (grainSamps demoWorld.obj)).mul demoWorld.obj.grainPeriodVariance
    ∧ spawnCalls demoWorld (0 : Int)
        = [Call.phasorTick, Call.triggerSampleAndTick (0 : Int), Call.allocate, Call.phasorSample]
          ++ (if demoWorld.obj.grainPeriodVariance.ne0 then
                [Call.rand32HalfRange (jitterRange demoWorld.obj)]
              else [])
          ++ [Call.grainInit 0 (spawnStart demoWorld (0 : Int) { demoWorld.obj.grainMgr with ActiveGrains := [0] }) (spawnStop demoWorld (0 : Int) { demoWorld.obj.grainMgr with ActiveGrains := [0] })
                demoWorld.obj.grainRate demoWorld.obj.windowFilter]
    ∧ (tickCalls demoWorld (0 : Int)).countP Call.isGrainInit = 1
    ∧ (spawnBlock demoWorld (0 : Int)).obj.grainMgr
        = { GrainPoolSize := demoWorld.obj.grainMgr.GrainPoolSize,
            slots := Function.update demoWorld.obj.grainMgr.slots 0
              (demo.grainInit (demoWorld.obj.grainMgr.slots 0) (spawnStart demoWorld (0 : Int) { demoWorld.obj.grainMgr with ActiveGrains := [0] })
                (spawnStop demoWorld (0 : Int) { demoWorld.obj.grainMgr with ActiveGrains := [0] }) demoWorld.obj.grainRate demoWorld.obj.windowFilter),
            ActiveGrains := 0 :: demoWorld.obj.grainMgr.ActiveGrains }
    ∧ (∀ h, h ≠ 0 → (spawnBlock demoWorld (0 : Int)).obj.grainMgr.slots h = demoWorld.obj.grainMgr.slots h)
    ∧ 0 ∉ demoWorld.obj.grainMgr.ActiveGrains ∧ 0 < demoWorld.obj.grainMgr.GrainPoolSize) :=
  ⟨rfl, rfl, rfl,
    tick_spawn demoWorld (0 : Int) 0 { demoWorld.obj.grainMgr with ActiveGrains := [0] }
      rfl rfl rfl⟩

/-- C6, as amended. The grain spawned by `Tick` gets a stop sample that is not below
its start sample provided that (1) `grainSamps`, the product `grainPeriod *
sampleRate` converted to `long`, is not negative, (2) when `grainPeriodVariance` is
not 0, the half-range `grainSamps * grainPeriodVariance` passed to the jitter draw
is a finite value that does not exceed `grainSamps`, and the draw lies within that
half-range of 0, and (3) the `long` sums of `getGrainStop` do not overflow. -/
theorem spawn_stop_ge_start (w : World σ) (x : σ.SAMPLE) (g : Nat) (mgr : dbGrainMgr σ)
    (hb : w.obj.bypassGrains = false) (hf : (afterTrigger w x).1 = true)
    (ha : w.obj.grainMgr.Allocate = some (g, mgr))
    (hgs : 0 ≤ grainSamps w.obj)
    (hjit : w.obj.grainPeriodVariance.ne0 = true →
      ∃ r : Rat, (jitterRange w.obj).toRat = some r
        ∧ |(jitterDraw (spawnWorld w x mgr) : Rat)| ≤ r
        ∧ r ≤ (grainSamps w.obj : Rat))
    (hov : InLong (spawnStart w x mgr + grainSamps w.obj)
      ∧ (w.obj.grainPeriodVariance.ne0 = true →
          InLong (spawnStart w x mgr + grainSamps w.obj
            + jitterDraw (spawnWorld w x mgr)))) :
    spawnStart w x mgr ≤ spawnStop w x mgr
    ∧ spawnStop w x mgr
        = (getGrainStop (spawnWorld w x mgr) (spawnStart w x mgr)).1
    ∧ (∀ h a b r f, Call.grainInit h a b r f ∈ tickCalls w x → a ≤ b) := by
  obtain ⟨hc1, hc2, hc3⟩ := spawn_config w x mgr
  have hle : spawnStart w x mgr ≤ spawnStop w x mgr := by
    unfold spawnStop
    apply getGrainStop_ge_start_of (callPhasorSample (afterAllocate w x mgr)).2
    · rw [hc2]; exact hgs
    · intro hn
      rw [hc1] at hn
      rw [hc3, hc2]
      exact hjit hn
    · rw [hc2, hc1]
      exact hov
  refine ⟨hle, rfl, ?_⟩
  intro h a b r f hmem
  rw [tickCalls_eq w x hb, spawnCalls_spawn w x g mgr hf ha] at hmem
  cases hn : w.obj.grainPeriodVariance.ne0 with
  | false =>
      simp [hn] at hmem
      obtain ⟨-, ha1, hb1, -, -⟩ := hmem
      rw [ha1, hb1]; exact hle
  | true =>
      simp [hn] at hmem
      obtain ⟨-, ha1, hb1, -, -⟩ := hmem
      rw [ha1, hb1]; exact hle

set_option maxRecDepth 8192 in
/-- Witness of C6 as amended: the first tick of `dbGrainBuf(44100)` after
`SetGrainPeriodVariance(0.5f)`; `grainSamps` is 8820, the half-range 4410, the draw
-4410, the start sample 1. -/
theorem spawn_stop_ge_start_witness :
    demoJitterWorld.obj.bypassGrains = false
    ∧ (afterTrigger demoJitterWorld (0 : Int)).1 = true
    ∧ demoJitterWorld.obj.grainMgr.Allocate = some (0, { demoJitterWorld.obj.grainMgr with ActiveGrains := [0] })
    ∧ (0 ≤ grainSamps demoJitterWorld.obj)
    ∧ (demoJitterWorld.obj.grainPeriodVariance.ne0 = true →
      ∃ r : Rat, (jitterRange demoJitterWorld.obj).toRat = some r
        ∧ |(jitterDraw (spawnWorld demoJitterWorld (0 : Int) { demoJitterWorld.obj.grainMgr with ActiveGrains := [0] }) : Rat)| ≤ r
        ∧ r ≤ (grainSamps demoJitterWorld.obj : Rat))
    ∧ (InLong (spawnStart demoJitterWorld (0 : Int) { demoJitterWorld.obj.grainMgr with ActiveGrains := [0] } + grainSamps demoJitterWorld.obj)
      ∧ (demoJitterWorld.obj.grainPeriodVariance.ne0 = true →
          InLong (spawnStart demoJitterWorld (0 : Int) { demoJitterWorld.obj.grainMgr with ActiveGrains := [0] } + grainSamps demoJitterWorld.obj
            + jitterDraw (spawnWorld demoJitterWorld (0 : Int) { demoJitterWorld.obj.grainMgr with ActiveGrains := [0] }))))
    ∧ (spawnStart demoJitterWorld (0 : Int) { demoJitterWorld.obj.grainMgr with ActiveGrains := [0] } ≤ spawnStop demoJitterWorld (0 : Int) { demoJitterWorld.obj.grainMgr with ActiveGrains := [0] }
    ∧ spawnStop demoJitterWorld (0 : Int) { demoJitterWorld.obj.grainMgr with ActiveGrains := [0] }
        = (getGrainStop (spawnWorld demoJitterWorld (0 : Int) { demoJitterWorld.obj.grainMgr with ActiveGrains := [0] }) (spawnStart demoJitterWorld (0 : Int) { demoJitterWorld.obj.grainMgr with ActiveGrains := [0] })).1
    ∧ (∀ h a b r f, Call.grainInit h a b r f ∈ tickCalls demoJitterWorld (0 : Int) → a ≤ b)) :=
  have hgs : grainSamps demoJitterWorld.obj = 8820 := by decide
  have hrange : jitterRange demoJitterWorld.obj = CFloat.fin false 9031680 (-11) := by decide
  have hdraw : jitterDraw (spawnWorld demoJitterWorld (0 : Int) { demoJitterWorld.obj.grainMgr with ActiveGrains := [0] }) = -4410 := by decide
  have hstart : spawnStart demoJitterWorld (0 : Int) { demoJitterWorld.obj.grainMgr with ActiveGrains := [0] } = 1 := by decide
  have h1 : 0 ≤ grainSamps demoJitterWorld.obj := by rw [hgs]; decide
  have h2 : demoJitterWorld.obj.grainPeriodVariance.ne0 = true →
      ∃ r : Rat, (jitterRange demoJitterWorld.obj).toRat = some r
        ∧ |(jitterDraw (spawnWorld demoJitterWorld (0 : Int) { demoJitterWorld.obj.grainMgr with ActiveGrains := [0] }) : Rat)| ≤ r
        ∧ r ≤ (grainSamps demoJitterWorld.obj : Rat) := by
    intro _
    refine ⟨4410, ?_, ?_, ?_⟩
    · rw [hrange]
      simp only [CFloat.toRat]
      norm_num
    · rw [hdraw]
      norm_num
    · rw [hgs]
      norm_num
  have h3 : InLong (spawnStart demoJitterWorld (0 : Int) { demoJitterWorld.obj.grainMgr with ActiveGrains := [0] } + grainSamps demoJitterWorld.obj)
      ∧ (demoJitterWorld.obj.grainPeriodVariance.ne0 = true →
          InLong (spawnStart demoJitterWorld (0 : Int) { demoJitterWorld.obj.grainMgr with ActiveGrains := [0] } + grainSamps demoJitterWorld.obj
            + jitterDraw (spawnWorld demoJitterWorld (0 : Int) { demoJitterWorld.obj.grainMgr with ActiveGrains := [0] }))) := by
    rw [hgs, hdraw, hstart]
    exact ⟨by decide, fun _ => by decide⟩
  ⟨rfl, rfl, rfl, h1, h2, h3,
    spawn_stop_ge_start demoJitterWorld (0 : Int) 0 { demoJitterWorld.obj.grainMgr with ActiveGrains := [0] } rfl rfl rfl h1 h2 h3⟩

set_option maxRecDepth 8192 in
/-- C6 fails for the object `dbGrainBuf(44100)` after `SetGrainPeriod(-1.0f)`, a
configuration reached by one setter call: no jitter is drawn (the variance is 0),
`grainSamps` is -44100, and the grain spawned in the first tick gets the start
sample 1 and the stop sample -44099. -/
theorem spawn_stop_ge_start_counterexample :
    demoNegWorld.obj = (SetGrainPeriod (dbGrainBuf.new (CFloat.lit 44100 1) (3 : Int)
        ((1, 0) : Nat × Nat) (0 : Nat) demoGrain : dbGrainBuf demo) (.fin true 8388608 (-23))).2
    ∧ demoNegWorld.obj.grainPeriodVariance.ne0 = false
    ∧ grainSamps demoNegWorld.obj = -44100
    ∧ (getGrainStop demoNegWorld 1).1 = -44099
    ∧ tickCalls demoNegWorld (0 : Int)
        = [Call.phasorTick, Call.triggerSampleAndTick (0 : Int), Call.allocate, Call.phasorSample,
           Call.grainInit 0 1 (-44099) (CFloat.lit 1 1) FilterType.kBlackman,
           Call.grainSampleAndTick 0, Call.prune]
    ∧ ¬ ((1 : Int) ≤ (getGrainStop demoNegWorld 1).1) := by
  refine ⟨rfl, ?_, ?_, ?_, ?_, ?_⟩ <;> decide

end DbGrainBuf
